import Mathlib

/-!
Verification development for the RIT scraper's core polling/diff/enrichment
engine (`parser/rit_scraper.py`).  JSON values are embedded as an inductive
type with rational numbers standing in for Python floats; Python `dict`s are
association lists; the checkpoint file and the network are reified as explicit
data (a `CheckpointDoc` value and an oracle function).
-/

/-- A JSON value, as produced by `json.loads`.  Python `float`/`int` are both
modelled by `ℚ`; objects are association lists in insertion order (Python
dicts preserve insertion order and never hold duplicate keys). -/
inductive Json where
  | null : Json
  | bool (b : Bool) : Json
  | num (q : ℚ) : Json
  | str (s : String) : Json
  | arr (xs : List Json) : Json
  | obj (fs : List (String × Json)) : Json

mutual

def decEqJ : (a b : Json) → Decidable (a = b)
  | .null, .null => .isTrue rfl
  | .null, .bool _ => .isFalse (fun h => Json.noConfusion h)
  | .null, .num _ => .isFalse (fun h => Json.noConfusion h)
  | .null, .str _ => .isFalse (fun h => Json.noConfusion h)
  | .null, .arr _ => .isFalse (fun h => Json.noConfusion h)
  | .null, .obj _ => .isFalse (fun h => Json.noConfusion h)
  | .bool _, .null => .isFalse (fun h => Json.noConfusion h)
  | .bool a, .bool b =>
      match decEq a b with
      | .isTrue h => .isTrue (by rw [h])
      | .isFalse h => .isFalse (fun hh => h (Json.bool.inj hh))
  | .bool _, .num _ => .isFalse (fun h => Json.noConfusion h)
  | .bool _, .str _ => .isFalse (fun h => Json.noConfusion h)
  | .bool _, .arr _ => .isFalse (fun h => Json.noConfusion h)
  | .bool _, .obj _ => .isFalse (fun h => Json.noConfusion h)
  | .num _, .null => .isFalse (fun h => Json.noConfusion h)
  | .num _, .bool _ => .isFalse (fun h => Json.noConfusion h)
  | .num a, .num b =>
      match decEq a b with
      | .isTrue h => .isTrue (by rw [h])
      | .isFalse h => .isFalse (fun hh => h (Json.num.inj hh))
  | .num _, .str _ => .isFalse (fun h => Json.noConfusion h)
  | .num _, .arr _ => .isFalse (fun h => Json.noConfusion h)
  | .num _, .obj _ => .isFalse (fun h => Json.noConfusion h)
  | .str _, .null => .isFalse (fun h => Json.noConfusion h)
  | .str _, .bool _ => .isFalse (fun h => Json.noConfusion h)
  | .str _, .num _ => .isFalse (fun h => Json.noConfusion h)
  | .str a, .str b =>
      match decEq a b with
      | .isTrue h => .isTrue (by rw [h])
      | .isFalse h => .isFalse (fun hh => h (Json.str.inj hh))
  | .str _, .arr _ => .isFalse (fun h => Json.noConfusion h)
  | .str _, .obj _ => .isFalse (fun h => Json.noConfusion h)
  | .arr _, .null => .isFalse (fun h => Json.noConfusion h)
  | .arr _, .bool _ => .isFalse (fun h => Json.noConfusion h)
  | .arr _, .num _ => .isFalse (fun h => Json.noConfusion h)
  | .arr _, .str _ => .isFalse (fun h => Json.noConfusion h)
  | .arr a, .arr b =>
      match decEqL a b with
      | .isTrue h => .isTrue (by rw [h])
      | .isFalse h => .isFalse (fun hh => h (Json.arr.inj hh))
  | .arr _, .obj _ => .isFalse (fun h => Json.noConfusion h)
  | .obj _, .null => .isFalse (fun h => Json.noConfusion h)
  | .obj _, .bool _ => .isFalse (fun h => Json.noConfusion h)
  | .obj _, .num _ => .isFalse (fun h => Json.noConfusion h)
  | .obj _, .str _ => .isFalse (fun h => Json.noConfusion h)
  | .obj _, .arr _ => .isFalse (fun h => Json.noConfusion h)
  | .obj a, .obj b =>
      match decEqF a b with
      | .isTrue h => .isTrue (by rw [h])
      | .isFalse h => .isFalse (fun hh => h (Json.obj.inj hh))

def decEqL : (a b : List Json) → Decidable (a = b)
  | [], [] => .isTrue rfl
  | [], _ :: _ => .isFalse (fun h => List.noConfusion h)
  | _ :: _, [] => .isFalse (fun h => List.noConfusion h)
  | a :: as, b :: bs =>
      match decEqJ a b with
      | .isTrue h1 =>
          match decEqL as bs with
          | .isTrue h2 => .isTrue (by rw [h1, h2])
          | .isFalse h2 => .isFalse (fun hh => h2 (List.cons.inj hh).2
            )
      | .isFalse h1 => .isFalse (fun hh => h1 (List.cons.inj hh).1)

def decEqF : (a b : List (String × Json)) → Decidable (a = b)
  | [], [] => .isTrue rfl
  | [], _ :: _ => .isFalse (fun h => List.noConfusion h)
  | _ :: _, [] => .isFalse (fun h => List.noConfusion h)
  | (k, v) :: as, (k', v') :: bs =>
      match decEq k k' with
      | .isTrue hk =>
          match decEqJ v v' with
          | .isTrue hv =>
              match decEqF as bs with
              | .isTrue h2 => .isTrue (by rw [hk, hv, h2])
              | .isFalse h2 => .isFalse (fun hh => h2 (List.cons.inj hh).2)
          | .isFalse hv => .isFalse (fun hh =>
              hv (congrArg Prod.snd (List.cons.inj hh).1))
      | .isFalse hk => .isFalse (fun hh =>
          hk (congrArg Prod.fst (List.cons.inj hh).1))

end

instance : DecidableEq Json := decEqJ

/-- Association-list lookup, the model of Python `dict.get`. -/
def lookupA {α : Type} : List (String × α) → String → Option α
  | [], _ => none
  | (k, v) :: rest, key => if k = key then some v else lookupA rest key

/-- Association-list store, the model of Python `dict.__setitem__`: replace the
binding in place if the key is present, else append a new binding. -/
def insertA {α : Type} : List (String × α) → String → α → List (String × α)
  | [], key, v => [(key, v)]
  | (k, w) :: rest, key, v =>
      if k = key then (k, v) :: rest else (k, w) :: insertA rest key v

/-- Model of Python `d.get(k)` on a JSON object: `None` (here `Json.null`) when
the key is absent, when the stored value is JSON null, or when the receiver is
not a dict.  (Python's `dict.get` cannot distinguish an absent key from a key
bound to `None`.) -/
def pyGet (j : Json) (key : String) : Json :=
  match j with
  | .obj fs => (lookupA fs key).getD .null
  | _ => .null

theorem lookupA_insertA_self {α : Type} (m : List (String × α)) (k : String) (v : α) :
    lookupA (insertA m k v) k = some v := by
  induction m with
  | nil => simp [insertA, lookupA]
  | cons p rest ih =>
      obtain ⟨k', w⟩ := p
      by_cases h : k' = k <;> simp [insertA, lookupA, h, ih]

theorem lookupA_insertA_ne {α : Type} (m : List (String × α)) (k t : String) (v : α)
    (h : t ≠ k) : lookupA (insertA m k v) t = lookupA m t := by
  induction m with
  | nil => simp [insertA, lookupA, Ne.symm h]
  | cons p rest ih =>
      obtain ⟨k', w⟩ := p
      by_cases h1 : k' = k
      · subst h1
        simp [insertA, lookupA, Ne.symm h]
      · simp [insertA, lookupA, h1, ih]

/-- `",".join`-style concatenation, the model of `str.join` in Python. -/
def joinSep (sep : String) : List String → String
  | [] => ""
  | [x] => x
  | x :: rest => x ++ sep ++ joinSep sep rest

/-- JSON string quoting as done by `json.dumps` (escaping is not modelled;
none of the claims depends on escape sequences). -/
def serStr (s : String) : String := "\"" ++ s ++ "\""

/-- Comparison of serialized object entries by key, the order used by
`json.dumps(..., sort_keys=True)`. -/
def keyLe (p q : String × String) : Prop := p.1 ≤ q.1

/-- Strict version of `keyLe`, used to show sorted field lists are unique. -/
def keyLt (p q : String × String) : Prop := p.1 < q.1

instance : DecidableRel keyLe := fun p q => inferInstanceAs (Decidable (p.1 ≤ q.1))

instance : IsTotal (String × String) keyLe := ⟨fun p q => le_total p.1 q.1⟩

instance : IsTrans (String × String) keyLe := ⟨fun _ _ _ h h' => le_trans h h'⟩

instance : IsAntisymm (String × String) keyLt :=
  ⟨fun _ _ h h' => absurd h' (lt_asymm h)⟩

mutual

/-- The model of `json.dumps(payload, sort_keys=True, separators=(",", ":"),
ensure_ascii=True)`: canonical serialization with the keys of every object
emitted in sorted order.  (Number formatting and string escaping are modelled
by `toString`/`serStr`; both are deterministic, which is all canonicity
needs.) -/
def serialize : Json → String
  | .null => "null"
  | .bool b => cond b "true" "false"
  | .num q => toString q
  | .str s => serStr s
  | .arr xs => "[" ++ joinSep "," (serializeList xs) ++ "]"
  | .obj fs =>
      "\x7b" ++
        joinSep ","
          (((serializeFields fs).insertionSort keyLe).map
            (fun p => serStr p.1 ++ ":" ++ p.2)) ++
      "\x7d"

def serializeList : List Json → List String
  | [] => []
  | x :: xs => serialize x :: serializeList xs

def serializeFields : List (String × Json) → List (String × String)
  | [] => []
  | (k, v) :: ps => (k, serialize v) :: serializeFields ps

end

/-- `fingerprint` from the source: the canonical serialization of a payload,
used as the change-detection fingerprint. -/
def fingerprint (payload : Json) : String := serialize payload

theorem serializeFields_eq_map (fs : List (String × Json)) :
    serializeFields fs = fs.map (fun p => (p.1, serialize p.2)) := by
  induction fs with
  | nil => simp [serializeFields]
  | cons p ps ih =>
      obtain ⟨k, v⟩ := p
      simp [serializeFields, ih]

theorem pairwise_combine {α : Type} {R S T : α → α → Prop}
    (h : ∀ a b, R a b → S a b → T a b) :
    ∀ {l : List α}, l.Pairwise R → l.Pairwise S → l.Pairwise T := by
  intro l hR hS
  induction l with
  | nil => exact List.Pairwise.nil
  | cons a l ih =>
      rw [List.pairwise_cons] at hR hS ⊢
      exact ⟨fun b hb => h a b (hR.1 b hb) (hS.1 b hb), ih hR.2 hS.2⟩

/-- Two key-value lists that are permutations of each other with no duplicate
keys sort to the same list under the `sort_keys=True` order. -/
theorem insertionSort_perm_eq (l₁ l₂ : List (String × String))
    (hperm : l₁.Perm l₂) (hnd : (l₁.map Prod.fst).Nodup) :
    l₁.insertionSort keyLe = l₂.insertionSort keyLe := by
  have hp₁ : (l₁.insertionSort keyLe).Perm l₁ := List.perm_insertionSort keyLe l₁
  have hp₂ : (l₂.insertionSort keyLe).Perm l₂ := List.perm_insertionSort keyLe l₂
  have hp : (l₁.insertionSort keyLe).Perm (l₂.insertionSort keyLe) :=
    (hp₁.trans hperm).trans hp₂.symm
  have hs₁ : (l₁.insertionSort keyLe).Sorted keyLe := List.sorted_insertionSort keyLe l₁
  have hs₂ : (l₂.insertionSort keyLe).Sorted keyLe := List.sorted_insertionSort keyLe l₂
  have hnd₁ : ((l₁.insertionSort keyLe).map Prod.fst).Nodup := by
    exact (hp₁.map Prod.fst).nodup_iff.mpr hnd
  have hnd₂ : ((l₂.insertionSort keyLe).map Prod.fst).Nodup := by
    have : (l₂.map Prod.fst).Nodup := (hperm.map Prod.fst).nodup_iff.mp hnd
    exact (hp₂.map Prod.fst).nodup_iff.mpr this
  have hne₁ : (l₁.insertionSort keyLe).Pairwise (fun p q => p.1 ≠ q.1) := by
    rw [List.Nodup, List.pairwise_map] at hnd₁
    exact hnd₁
  have hne₂ : (l₂.insertionSort keyLe).Pairwise (fun p q => p.1 ≠ q.1) := by
    rw [List.Nodup, List.pairwise_map] at hnd₂
    exact hnd₂
  have hlt₁ : (l₁.insertionSort keyLe).Sorted keyLt :=
    pairwise_combine (fun _ _ hle hne => lt_of_le_of_ne hle hne) hs₁ hne₁
  have hlt₂ : (l₂.insertionSort keyLe).Sorted keyLt :=
    pairwise_combine (fun _ _ hle hne => lt_of_le_of_ne hle hne) hs₂ hne₂
  exact List.eq_of_perm_of_sorted hp hlt₁ hlt₂

/-- Order-independence of the fingerprint: structurally identical objects
(same key-value bindings, possibly in different field order, no duplicate
keys) serialize identically. -/
theorem fingerprint_perm (fs gs : List (String × Json))
    (hperm : fs.Perm gs) (hnd : (fs.map Prod.fst).Nodup) :
    fingerprint (.obj fs) = fingerprint (.obj gs) := by
  have hmap : (serializeFields fs).Perm (serializeFields gs) := by
    rw [serializeFields_eq_map, serializeFields_eq_map]
    exact hperm.map _
  have hnd' : ((serializeFields fs).map Prod.fst).Nodup := by
    rw [serializeFields_eq_map, List.map_map]
    exact hnd
  have hsort : (serializeFields fs).insertionSort keyLe
      = (serializeFields gs).insertionSort keyLe :=
    insertionSort_perm_eq _ _ hmap hnd'
  simp only [fingerprint, serialize, hsort]

/-- Numeric value of a digit string, most significant first. -/
def digitsVal (cs : List Char) : ℕ :=
  cs.foldl (fun n c => n * 10 + (c.toNat - 48)) 0

/-- Python `str.strip()` on the character list of a string. -/
def pyStrip (s : String) : List Char :=
  ((s.data.dropWhile (fun c => c.isWhitespace)).reverse.dropWhile
    (fun c => c.isWhitespace)).reverse

/-- Model of Python `float(str)` on the decimal forms `[+|-]ddd[.ddd]` with
surrounding whitespace; anything else raises `ValueError` (here `none`).
(Exponent/`inf`/`nan` forms are not modelled; no claim involves them.) -/
def parseFloat (s : String) : Option ℚ :=
  let cs := pyStrip s
  let sr : ℚ × List Char :=
    match cs with
    | '-' :: r => (-1, r)
    | '+' :: r => (1, r)
    | r => (1, r)
  let ipart := sr.2.takeWhile (fun c => c.isDigit)
  let after := sr.2.dropWhile (fun c => c.isDigit)
  match after with
  | [] => if ipart.isEmpty then none else some (sr.1 * (digitsVal ipart : ℚ))
  | '.' :: fpart =>
      if fpart.all (fun c => c.isDigit) && !(ipart.isEmpty && fpart.isEmpty) then
        some (sr.1 * ((digitsVal ipart : ℚ) + (digitsVal fpart : ℚ) / (10 : ℚ) ^ fpart.length))
      else none
  | _ => none

/-- Model of Python `float(x)` on a JSON value: numbers pass through, booleans
coerce, strings are parsed, everything else raises `TypeError` (`none`). -/
def pyFloat : Json → Option ℚ
  | .num q => some q
  | .bool b => some (cond b 1 0)
  | .str s => parseFloat s
  | _ => none

/-- `extract_retry_after` from the source: the candidate wait is the payload's
`wait` field when the payload is a dict and the field is present and non-null,
else the `Retry-After` response header; `float(wait)` failures (including a
missing candidate, i.e. `float(None)`) fall back to `0.5`, and successful
parses are clamped below by `0.0` via `max`. -/
def extract_retry_after (payload : Json) (headers : List (String × String)) : ℚ :=
  let wait0 : Json := pyGet payload "wait"
  let wait1 : Json :=
    match wait0 with
    | .null =>
        match lookupA headers "Retry-After" with
        | some s => .str s
        | none => .null
    | w => w
  match pyFloat wait1 with
  | some x => max x 0
  | none => 1 / 2

/-- One HTTP response as returned by `request_json`: status code (0 for a
connection failure), parsed JSON payload, response headers. -/
structure Response where
  status : ℕ
  payload : Json
  headers : List (String × String)

/-- The Fetch Gateway (external collaborator): a pure function from URL and
request headers to a response. -/
def Oracle : Type := String → List (String × String) → Response

/-- The loop body of `request_json_with_retry`, with `fuel` attempts left
(`fuel = retries + 1` at the top).  Returns the final response, the list of
URLs actually requested (one entry per attempt), and the list of back-off
sleeps performed (one per rate-limited attempt, in seconds). -/
def retry_loop (o : Oracle) (url : String) (hdrs : List (String × String)) :
    ℕ → Response × List String × List ℚ
  | 0 => (o url hdrs, [url], [])
  | 1 =>
      let r := o url hdrs
      if r.status = 429 then (r, [url], [extract_retry_after r.payload r.headers])
      else (r, [url], [])
  | n + 2 =>
      let r := o url hdrs
      if r.status = 429 then
        let rest := retry_loop o url hdrs (n + 1)
        (rest.1, url :: rest.2.1, extract_retry_after r.payload r.headers :: rest.2.2)
      else (r, [url], [])

/-- `request_json_with_retry` from the source (default `retries = 2`): retry
while the status is 429, sleeping the extracted wait each time, and return the
first non-429 result, or the last 429 result once retries are exhausted. -/
def request_json_with_retry (o : Oracle) (url : String)
    (hdrs : List (String × String)) (retries : ℕ) : Response × List String × List ℚ :=
  retry_loop o url hdrs (retries + 1)

/-- Model of Python `str(x)` on the JSON scalars that occur as item ids. -/
def pyStr : Json → String
  | .str s => s
  | .num q => toString q
  | .bool b => cond b "True" "False"
  | .null => "None"
  | j => serialize j

/-- `record_items` from the source: walk the items in order; skip an item
whose id (`item.get(id_key)`) is `None`; otherwise fingerprint the full item
and, unless the dedup map already holds exactly that fingerprint under the
item's key, store the fingerprint and emit a `{ts, label: item}` record.
Returns the updated map, the emitted records in order, and their count. -/
def record_items (items : List Json) (state_map : List (String × String))
    (now_str id_key label : String) : List (String × String) × List Json × ℕ :=
  match items with
  | [] => (state_map, [], 0)
  | item :: rest =>
      let raw_id := pyGet item id_key
      if raw_id = .null then record_items rest state_map now_str id_key label
      else
        let key := pyStr raw_id
        let fp := fingerprint item
        if lookupA state_map key = some fp then
          record_items rest state_map now_str id_key label
        else
          let out := record_items rest (insertA state_map key fp) now_str id_key label
          (out.1, Json.obj [("ts", .str now_str), (label, item)] :: out.2.1, out.2.2 + 1)

/-- One `{"last": ..., "mid": ...}` entry of `last_prices`. -/
structure PricePair where
  last : Option ℚ
  mid : Option ℚ
deriving DecidableEq

/-- `ScrapeState` from the source: the durable, mutable session memory. -/
structure ScrapeState where
  last_news_id : Option ℤ := none
  last_prices : List (String × PricePair) := []
  first_prices : List (String × Option ℚ) := []
  last_case : Option Json := none
  last_tick_ts : Option ℚ := none
  last_period_ts : Option ℚ := none
  last_tenders : List (String × String) := []
  last_leases : List (String × String) := []
  disabled_endpoints : Finset String := ∅
deriving DecidableEq

/-- The single JSON document `ScrapeState.save` writes to `state.json`:
every field of the state, with the `disabled_endpoints` set serialized as a
sorted list. -/
structure CheckpointDoc where
  last_news_id : Option ℤ
  last_prices : List (String × PricePair)
  first_prices : List (String × Option ℚ)
  last_case : Option Json
  last_tick_ts : Option ℚ
  last_period_ts : Option ℚ
  last_tenders : List (String × String)
  last_leases : List (String × String)
  disabled_endpoints : List String
deriving DecidableEq

/-- `ScrapeState.save`: build the all-fields checkpoint document
(`sorted(self.disabled_endpoints)` for the set). -/
def ScrapeState.save (s : ScrapeState) : CheckpointDoc :=
  { last_news_id := s.last_news_id
    last_prices := s.last_prices
    first_prices := s.first_prices
    last_case := s.last_case
    last_tick_ts := s.last_tick_ts
    last_period_ts := s.last_period_ts
    last_tenders := s.last_tenders
    last_leases := s.last_leases
    disabled_endpoints := s.disabled_endpoints.sort (· ≤ ·) }

/-- `ScrapeState.load`: a missing checkpoint file (`none`) yields the empty
state; otherwise each field is read back, with `set(... or [])` rebuilding the
disabled-endpoints set.  (Python's `raw.get(k) or {}` substitutes `{}` exactly
when the stored value is falsy — `None` or empty — which is extensionally the
identity on the mapping fields of a document produced by `save`.) -/
def ScrapeState.load (doc : Option CheckpointDoc) : ScrapeState :=
  match doc with
  | none => {}
  | some d =>
      { last_news_id := d.last_news_id
        last_prices := d.last_prices
        first_prices := d.first_prices
        last_case := d.last_case
        last_tick_ts := d.last_tick_ts
        last_period_ts := d.last_period_ts
        last_tenders := d.last_tenders
        last_leases := d.last_leases
        disabled_endpoints := d.disabled_endpoints.toFinset }

/-- `diff` from the source: subtraction that propagates missing operands. -/
def diff (current prev : Option ℚ) : Option ℚ :=
  match current, prev with
  | some c, some p => some (c - p)
  | _, _ => none

/-- `pct_change` from the source: `None` when `current is None` or
`prev in (None, 0)`, else `(current - prev) / prev * 100`. -/
def pct_change (current prev : Option ℚ) : Option ℚ :=
  match current, prev with
  | some c, some p => if p = 0 then none else some ((c - p) / p * 100)
  | _, _ => none

/-- One security as consumed by `enrich_securities` (`sec.get` of the four
fields the engine reads; other input fields are carried through opaquely by
the `**sec` spread and are not modelled). -/
structure Sec where
  ticker : Option String
  last : Option ℚ
  bid : Option ℚ
  ask : Option ℚ
deriving DecidableEq

/-- The seven derived fields `enrich_securities` appends to a security. -/
structure EnrichedSec where
  base : Sec
  mid : Option ℚ
  delta_last : Option ℚ
  pct_last : Option ℚ
  delta_mid : Option ℚ
  pct_mid : Option ℚ
  delta_from_start : Option ℚ
  pct_from_start : Option ℚ
deriving DecidableEq

/-- Python truthiness of the `ticker` value as used by `if ticker:` — falsy
when the field is absent/`None` (here `none`) or the empty string. -/
def tickerOf (sec : Sec) : Option String :=
  match sec.ticker with
  | some s => if s = "" then none else some s
  | none => none

/-- The body of `enrich_securities`'s per-security loop, mirroring the source
order: compute `mid`; read the previous `{last, mid}`; record the first price
if the ticker is truthy, not yet in `first_prices`, and `last` is non-null;
read `first`; overwrite `last_prices[ticker]`; emit the enriched record. -/
def enrichOne (st : ScrapeState) (sec : Sec) : ScrapeState × EnrichedSec :=
  let mid : Option ℚ :=
    match sec.bid, sec.ask with
    | some b, some a => some ((b + a) / 2)
    | _, _ => none
  let prev : PricePair :=
    match tickerOf sec with
    | some t => (lookupA st.last_prices t).getD ⟨none, none⟩
    | none => ⟨none, none⟩
  let st1 : ScrapeState :=
    match tickerOf sec with
    | some t =>
        if (lookupA st.first_prices t).isNone then
          match sec.last with
          | some l => { st with first_prices := insertA st.first_prices t (some l) }
          | none => st
        else st
    | none => st
  let first : Option ℚ :=
    match tickerOf sec with
    | some t => (lookupA st1.first_prices t).getD none
    | none => none
  let st2 : ScrapeState :=
    match tickerOf sec with
    | some t => { st1 with last_prices := insertA st1.last_prices t ⟨sec.last, mid⟩ }
    | none => st1
  (st2,
   { base := sec
     mid := mid
     delta_last := diff sec.last prev.last
     pct_last := pct_change sec.last prev.last
     delta_mid := diff mid prev.mid
     pct_mid := pct_change mid prev.mid
     delta_from_start := diff sec.last first
     pct_from_start := pct_change sec.last first })

/-- `enrich_securities` from the source: thread the state through the
securities in input order, collecting the enriched records. -/
def enrich_securities (st : ScrapeState) (secs : List Sec) :
    ScrapeState × List EnrichedSec :=
  match secs with
  | [] => (st, [])
  | s :: rest =>
      let step := enrichOne st s
      let out := enrich_securities step.1 rest
      (out.1, step.2 :: out.2)

/-- A case event as written to `case_events.jsonl`. -/
inductive CaseEvent where
  | case_start (ts : String) (case : Json)
  | case_change (ts : String) (prev current : Json)
  | status_change (ts : String) (prev current : Json)
  | period_change (ts : String) (prev current : Json) (seconds_since_last_period : Option ℚ)
  | tick_change (ts : String) (prev current : Json) (seconds_since_last_tick : Option ℚ)
deriving DecidableEq

/-- `detect_case_events` from the source.  With no stored snapshot: emit one
`case_start`, set both anchors to `now_ts`, store the snapshot, return.
Otherwise compare `name`, `status`, `period`, `tick` in that order, emitting
one event per changed field; period/tick events carry `now_ts` minus the
previous anchor (null if none) and move that anchor; the new snapshot is
stored unconditionally. -/
def detect_case_events (st : ScrapeState) (case : Json) (now_ts : ℚ) (now_str : String) :
    ScrapeState × List CaseEvent :=
  match st.last_case with
  | none =>
      ({ st with last_tick_ts := some now_ts, last_period_ts := some now_ts,
                 last_case := some case },
       [.case_start now_str case])
  | some prev =>
      let nameEv : List CaseEvent :=
        if pyGet case "name" = pyGet prev "name" then []
        else [.case_change now_str (pyGet prev "name") (pyGet case "name")]
      let statusEv : List CaseEvent :=
        if pyGet case "status" = pyGet prev "status" then []
        else [.status_change now_str (pyGet prev "status") (pyGet case "status")]
      let periodStep : Option ℚ × List CaseEvent :=
        if pyGet case "period" = pyGet prev "period" then (st.last_period_ts, [])
        else (some now_ts,
          [.period_change now_str (pyGet prev "period") (pyGet case "period")
            (st.last_period_ts.map (fun t => now_ts - t))])
      let tickStep : Option ℚ × List CaseEvent :=
        if pyGet case "tick" = pyGet prev "tick" then (st.last_tick_ts, [])
        else (some now_ts,
          [.tick_change now_str (pyGet prev "tick") (pyGet case "tick")
            (st.last_tick_ts.map (fun t => now_ts - t))])
      ({ st with last_period_ts := periodStep.1, last_tick_ts := tickStep.1,
                 last_case := some case },
       nameEv ++ statusEv ++ periodStep.2 ++ tickStep.2)

def MODE_CLIENT : String := "client"

def MODE_DMA : String := "dma"

/-- Python `s.rstrip("/")`. -/
def rstripSlash (s : String) : String :=
  ⟨(s.data.reverse.dropWhile (fun c => c = '/')).reverse⟩

/-- Python `s.lstrip("/")`. -/
def lstripSlash (s : String) : String :=
  ⟨s.data.dropWhile (fun c => c = '/')⟩

/-- `urllib.parse.urlencode` on an ordered parameter list (percent-quoting is
not modelled; no claim depends on it). -/
def urlencode : List (String × String) → String
  | [] => ""
  | [p] => p.1 ++ "=" ++ p.2
  | p :: rest => p.1 ++ "=" ++ p.2 ++ "&" ++ urlencode rest

/-- `build_url` from the source. -/
def build_url (base_url path : String) (params : List (String × String)) : String :=
  let base := rstripSlash base_url
  let p := lstripSlash path
  let url := if p = "" then base else base ++ "/" ++ p
  if params.isEmpty then url else url ++ "?" ++ urlencode params

/-- `ClientConfig` from the source. -/
structure ClientConfig where
  base_url : String
  headers : List (String × String)
  mode : String

/-- The CLI arguments `poll_once` consults. -/
structure Args where
  book_limit : ℕ
  book_tickers : Option String
  book_max : Option ℕ
  skip_books : Bool
  news_limit : ℕ
  skip_news : Bool
  skip_tenders : Bool
  skip_leases : Bool

/-- `ensure_ok` from the source: `RuntimeError` (modelled as a message) on a
401 status or on the 0 connection-failure sentinel, otherwise fine. -/
def ensure_ok (status : ℕ) (label : String) : Option String :=
  if status = 401 then some ("Unauthorized for " ++ label ++ ". Check credentials.")
  else if status = 0 then some ("Connection error while fetching " ++ label ++ ".")
  else none

/-- `select_book_tickers` from the source (`args.book_tickers` falsy — absent
or empty — selects all tickers; the comma-list is stripped and blanks are
dropped; `book_max` caps the count). -/
def select_book_tickers (all_tickers : List String) (args : Args) : List String :=
  let tickers :=
    match args.book_tickers with
    | some s =>
        if s = "" then all_tickers
        else ((s.splitOn ",").map (fun t => t.trim)).filter (fun t => !t.isEmpty)
    | none => all_tickers
  match args.book_max with
  | some m => if tickers.length > m then tickers.take m else tickers
  | none => tickers

def asArr : Json → Option (List Json)
  | .arr xs => some xs
  | _ => none

/-- The four fields `enrich_securities` reads from a securities-list element
(values of unexpected JSON type degrade to `none`). -/
def secOfJson (j : Json) : Sec :=
  { ticker := match pyGet j "ticker" with | .str s => some s | _ => none
    last := match pyGet j "last" with | .num q => some q | _ => none
    bid := match pyGet j "bid" with | .num q => some q | _ => none
    ask := match pyGet j "ask" with | .num q => some q | _ => none }

/-- Sort key for news items: `x.get("news_id", 0)` (non-numeric ids degrade
to 0; no claim concerns news ordering). -/
def newsKey (j : Json) : ℚ :=
  match j with
  | .obj fs =>
      match lookupA fs "news_id" with
      | some (.num q) => q
      | _ => 0
  | _ => 0

def newsLe (a b : Json) : Prop := newsKey a ≤ newsKey b

instance : DecidableRel newsLe := fun a b => inferInstanceAs (Decidable (newsKey a ≤ newsKey b))

/-- Python `int(q)`: truncation toward zero. -/
def pyIntTrunc (q : ℚ) : ℤ := if 0 ≤ q then ⌊q⌋ else ⌈q⌉

/-- The book-polling loop of `poll_once`: per ticker, fetch the book (with
retries); a final 429 skips just that ticker; 401/0 raises.  Returns the URLs
requested and the first raised error, if any.  Book records and the optional
inter-request delay are I/O and are not modelled. -/
def books_step (o : Oracle) (cfg : ClientConfig) (limit : ℕ) :
    List String → List String × Option String
  | [] => ([], none)
  | t :: rest =>
      let url := build_url cfg.base_url "/v1/securities/book"
        [("ticker", t), ("limit", toString limit)]
      let rr := request_json_with_retry o url cfg.headers 2
      if rr.1.status = 429 then
        let out := books_step o cfg limit rest
        (rr.2.1 ++ out.1, out.2)
      else
        match ensure_ok rr.1.status ("book:" ++ t) with
        | some e => (rr.2.1, some e)
        | none =>
            let out := books_step o cfg limit rest
            (rr.2.1 ++ out.1, out.2)

/-- The news block of `poll_once`: query `/v1/news` (with `since`/`after`
set from `last_news_id` depending on mode), and on a 200 list payload advance
`last_news_id` to the maximum id seen, walking items in ascending id order.
News records themselves are writes and are not modelled. -/
def news_step (o : Oracle) (cfg : ClientConfig) (st : ScrapeState) (args : Args) :
    ScrapeState × List String × Option String :=
  let ps : List (String × String) :=
    [("limit", toString args.news_limit)] ++
      (match st.last_news_id with
       | some i => [((if cfg.mode = MODE_DMA then "after" else "since"), toString i)]
       | none => [])
  let url := build_url cfg.base_url "/v1/news" ps
  let rr := request_json_with_retry o url cfg.headers 2
  match ensure_ok rr.1.status "news" with
  | some e => (st, rr.2.1, some e)
  | none =>
      match (if rr.1.status = 200 then asArr rr.1.payload else none) with
      | some items =>
          ((items.insertionSort newsLe).foldl (fun s item =>
              match pyGet item "news_id" with
              | .num q =>
                  { s with last_news_id := some (max (s.last_news_id.getD 0) (pyIntTrunc q)) }
              | _ => s) st,
           rr.2.1, none)
      | none => (st, rr.2.1, none)

/-- The tenders block of `poll_once`: a 404 adds `"tenders"` to the disabled
set; otherwise 401/0 raises, and a 200 list payload runs the Dedup Recorder
over `last_tenders` with id field `tender_id`. -/
def tenders_step (o : Oracle) (cfg : ClientConfig) (st : ScrapeState) (now_str : String) :
    ScrapeState × List String × Option String :=
  let url := build_url cfg.base_url "/v1/tenders" []
  let rr := request_json_with_retry o url cfg.headers 2
  if rr.1.status = 404 then
    ({ st with disabled_endpoints := insert "tenders" st.disabled_endpoints }, rr.2.1, none)
  else
    match ensure_ok rr.1.status "tenders" with
    | some e => (st, rr.2.1, some e)
    | none =>
        match (if rr.1.status = 200 then asArr rr.1.payload else none) with
        | some items =>
            let out := record_items items st.last_tenders now_str "tender_id" "tender"
            ({ st with last_tenders := out.1 }, rr.2.1, none)
        | none => (st, rr.2.1, none)

/-- The leases block of `poll_once`, identical to tenders but independently
tracked (`last_leases`, id field `id`). -/
def leases_step (o : Oracle) (cfg : ClientConfig) (st : ScrapeState) (now_str : String) :
    ScrapeState × List String × Option String :=
  let url := build_url cfg.base_url "/v1/leases" []
  let rr := request_json_with_retry o url cfg.headers 2
  if rr.1.status = 404 then
    ({ st with disabled_endpoints := insert "leases" st.disabled_endpoints }, rr.2.1, none)
  else
    match ensure_ok rr.1.status "leases" with
    | some e => (st, rr.2.1, some e)
    | none =>
        match (if rr.1.status = 200 then asArr rr.1.payload else none) with
        | some items =>
            let out := record_items items st.last_leases now_str "id" "lease"
            ({ st with last_leases := out.1 }, rr.2.1, none)
        | none => (st, rr.2.1, none)

/-- Observable outcome of one poll cycle: the in-memory state afterwards, the
URLs requested (in order, one per HTTP attempt), the case events emitted, the
checkpoint document written at the end of the cycle (`none` when the cycle
aborted or raised before reaching the save), and the raised error if any. -/
structure PollResult where
  state : ScrapeState
  urls : List String
  events : List CaseEvent
  checkpoint : Option CheckpointDoc
  fatal : Option String
deriving DecidableEq

/-- `poll_once` from the source, sequencing one cycle: case (non-200 aborts
the cycle), case-event detection, securities (non-200 or non-list aborts),
enrichment, then optionally books, news, tenders, leases, and finally the
unconditional checkpoint save.  Raised `RuntimeError`s (`ensure_ok`) abort the
rest of the cycle including the save. -/
def poll_once (o : Oracle) (cfg : ClientConfig) (st : ScrapeState) (args : Args)
    (now_ts : ℚ) (now_str : String) : PollResult :=
  let case_url := build_url cfg.base_url "/v1/case" []
  let rc := request_json_with_retry o case_url cfg.headers 2
  match ensure_ok rc.1.status "case" with
  | some e => ⟨st, rc.2.1, [], none, some e⟩
  | none =>
    if rc.1.status = 200 then
      let dc := detect_case_events st rc.1.payload now_ts now_str
      let sec_url := build_url cfg.base_url "/v1/securities" []
      let rs := request_json_with_retry o sec_url cfg.headers 2
      match ensure_ok rs.1.status "securities" with
      | some e => ⟨dc.1, rc.2.1 ++ rs.2.1, dc.2, none, some e⟩
      | none =>
        match (if rs.1.status = 200 then asArr rs.1.payload else none) with
        | none => ⟨dc.1, rc.2.1 ++ rs.2.1, dc.2, none, none⟩
        | some items =>
          let secs := items.map secOfJson
          let en := enrich_securities dc.1 secs
          let tickers := secs.filterMap tickerOf
          let bk : List String × Option String :=
            if args.skip_books then ([], none)
            else books_step o cfg args.book_limit (select_book_tickers tickers args)
          match bk.2 with
          | some e => ⟨en.1, rc.2.1 ++ rs.2.1 ++ bk.1, dc.2, none, some e⟩
          | none =>
            let nw : ScrapeState × List String × Option String :=
              if args.skip_news then (en.1, [], none)
              else news_step o cfg en.1 args
            match nw.2.2 with
            | some e => ⟨nw.1, rc.2.1 ++ rs.2.1 ++ bk.1 ++ nw.2.1, dc.2, none, some e⟩
            | none =>
              let td : ScrapeState × List String × Option String :=
                if args.skip_tenders ∨ "tenders" ∈ nw.1.disabled_endpoints then (nw.1, [], none)
                else tenders_step o cfg nw.1 now_str
              match td.2.2 with
              | some e =>
                  ⟨td.1, rc.2.1 ++ rs.2.1 ++ bk.1 ++ nw.2.1 ++ td.2.1, dc.2, none, some e⟩
              | none =>
                let le : ScrapeState × List String × Option String :=
                  if args.skip_leases ∨ "leases" ∈ td.1.disabled_endpoints then (td.1, [], none)
                  else leases_step o cfg td.1 now_str
                match le.2.2 with
                | some e =>
                    ⟨le.1, rc.2.1 ++ rs.2.1 ++ bk.1 ++ nw.2.1 ++ td.2.1 ++ le.2.1,
                     dc.2, none, some e⟩
                | none =>
                    ⟨le.1, rc.2.1 ++ rs.2.1 ++ bk.1 ++ nw.2.1 ++ td.2.1 ++ le.2.1,
                     dc.2, some le.1.save, none⟩
    else ⟨st, rc.2.1, [], none, none⟩

theorem diff_none_right (a : Option ℚ) : diff a none = none := by
  cases a <;> rfl

theorem pct_change_none_right (a : Option ℚ) : pct_change a none = none := by
  cases a <;> rfl

theorem diff_none_left (b : Option ℚ) : diff none b = none := rfl

theorem pct_change_none_left (b : Option ℚ) : pct_change none b = none := rfl

theorem load_save_disabled (s : ScrapeState) :
    (ScrapeState.load (some s.save)).disabled_endpoints = s.disabled_endpoints := by
  simp [ScrapeState.load, ScrapeState.save, Finset.sort_toFinset]

/-- C6: save followed by load is the identity on `disabled_endpoints`,
`last_prices`, `first_prices`, and `last_news_id` (the set round-trips through
its sorted-list serialization). -/
theorem save_load_roundtrip (s : ScrapeState) :
    (ScrapeState.load (some s.save)).disabled_endpoints = s.disabled_endpoints ∧
    (ScrapeState.load (some s.save)).last_prices = s.last_prices ∧
    (ScrapeState.load (some s.save)).first_prices = s.first_prices ∧
    (ScrapeState.load (some s.save)).last_news_id = s.last_news_id :=
  ⟨load_save_disabled s, rfl, rfl, rfl⟩

/-- C9: with no stored snapshot, the detector emits exactly the one
`case_start` event carrying the full case snapshot, sets both timing anchors
to `now_ts`, stores the snapshot, and changes nothing else (no field
comparison happens: the result depends only on the snapshot store). -/
theorem detect_case_start (st : ScrapeState) (case : Json) (now_ts : ℚ) (now_str : String)
    (h : st.last_case = none) :
    detect_case_events st case now_ts now_str =
      ({ st with last_tick_ts := some now_ts, last_period_ts := some now_ts,
                 last_case := some case },
       [CaseEvent.case_start now_str case]) := by
  simp [detect_case_events, h]

theorem detect_case_start_witness :
    detect_case_events {} (Json.obj [("name", .str "c1")]) 5 "t0" =
      ({ last_tick_ts := some 5, last_period_ts := some 5,
         last_case := some (Json.obj [("name", .str "c1")]) },
       [CaseEvent.case_start "t0" (Json.obj [("name", .str "c1")])]) :=
  detect_case_start {} (Json.obj [("name", .str "c1")]) 5 "t0" rfl

/-- C8: `mid` is the average of bid and ask when both are present and null
otherwise; the six derived fields are exactly `diff`/`pct_change` of the
documented operands; and the shared rule satisfies `diff(a,b) = a-b`,
`pct(a,b) = (a-b)/b*100` for `b ≠ 0`, null propagation, `pct(110,100) = 10`,
and `pct(x,0) = null`. -/
theorem enrich_shared_rule (st : ScrapeState) (sec : Sec) :
    (∀ b a : ℚ, sec.bid = some b → sec.ask = some a →
        (enrichOne st sec).2.mid = some ((b + a) / 2)) ∧
    ((sec.bid = none ∨ sec.ask = none) → (enrichOne st sec).2.mid = none) ∧
    ((enrichOne st sec).2.delta_last =
      diff sec.last
        (match tickerOf sec with
         | some t => ((lookupA st.last_prices t).getD ⟨none, none⟩).last
         | none => none)) ∧
    ((enrichOne st sec).2.pct_last =
      pct_change sec.last
        (match tickerOf sec with
         | some t => ((lookupA st.last_prices t).getD ⟨none, none⟩).last
         | none => none)) ∧
    ((enrichOne st sec).2.delta_mid =
      diff (enrichOne st sec).2.mid
        (match tickerOf sec with
         | some t => ((lookupA st.last_prices t).getD ⟨none, none⟩).mid
         | none => none)) ∧
    ((enrichOne st sec).2.pct_mid =
      pct_change (enrichOne st sec).2.mid
        (match tickerOf sec with
         | some t => ((lookupA st.last_prices t).getD ⟨none, none⟩).mid
         | none => none)) ∧
    ((enrichOne st sec).2.delta_from_start =
      diff sec.last
        (match tickerOf sec with
         | some t => (lookupA (enrichOne st sec).1.first_prices t).getD none
         | none => none)) ∧
    ((enrichOne st sec).2.pct_from_start =
      pct_change sec.last
        (match tickerOf sec with
         | some t => (lookupA (enrichOne st sec).1.first_prices t).getD none
         | none => none)) ∧
    (∀ a b : ℚ, diff (some a) (some b) = some (a - b)) ∧
    (∀ a b : Option ℚ, a = none ∨ b = none → diff a b = none ∧ pct_change a b = none) ∧
    (∀ a b : ℚ, b ≠ 0 → pct_change (some a) (some b) = some ((a - b) / b * 100)) ∧
    (∀ x : ℚ, pct_change (some x) (some 0) = none) ∧
    pct_change (some 110) (some 100) = some 10 := by
  refine ⟨?_, ?_, ?_, ?_, ?_, ?_, ?_, ?_, ?_, ?_, ?_, ?_, ?_⟩
  · intro b a hb ha
    simp [enrichOne, hb, ha]
  · intro h
    rcases h with h | h <;> simp [enrichOne, h]
  · cases ht : tickerOf sec <;> simp [enrichOne, ht]
  · cases ht : tickerOf sec <;> simp [enrichOne, ht]
  · cases ht : tickerOf sec <;> simp [enrichOne, ht]
  · cases ht : tickerOf sec <;> simp [enrichOne, ht]
  · cases ht : tickerOf sec <;> simp [enrichOne, ht]
  · cases ht : tickerOf sec <;> simp [enrichOne, ht]
  · intro a b
    rfl
  · intro a b h
    rcases h with h | h <;> subst h
    · exact ⟨rfl, rfl⟩
    · exact ⟨diff_none_right a, pct_change_none_right a⟩
  · intro a b h
    simp [pct_change, h]
  · intro x
    simp [pct_change]
  · norm_num [pct_change]

def secW1 : Sec := { ticker := some "A", last := some 12, bid := some 10, ask := some 12 }

def secW2 : Sec := { ticker := some "A", last := some 12, bid := none, ask := some 12 }

theorem enrich_shared_rule_witness :
    (enrichOne {} secW1).2.mid = some 11 ∧ (enrichOne {} secW2).2.mid = none := by
  constructor
  · have h := (enrich_shared_rule {} secW1).1 10 12 rfl rfl
    norm_num at h
    exact h
  · exact (enrich_shared_rule {} secW2).2.1 (Or.inl rfl)

/-- C10: a security whose `ticker` is absent or null leaves `last_prices` and
`first_prices` (indeed the whole state) unchanged and gets null for all six
vs-previous and vs-start derived fields, while `mid` is still computed from
bid and ask. -/
theorem enrich_null_ticker (st : ScrapeState) (sec : Sec) (h : sec.ticker = none) :
    enrich_securities st [sec] =
      (st,
       [{ base := sec
          mid := match sec.bid, sec.ask with
                 | some b, some a => some ((b + a) / 2)
                 | _, _ => none
          delta_last := none
          pct_last := none
          delta_mid := none
          pct_mid := none
          delta_from_start := none
          pct_from_start := none }]) := by
  have ht : tickerOf sec = none := by simp [tickerOf, h]
  simp [enrich_securities, enrichOne, ht, diff_none_right, pct_change_none_right]

theorem enrich_null_ticker_witness :
    enrich_securities {} [{ ticker := none, last := some 7, bid := some 10, ask := some 14 }] =
      ({},
       [{ base := { ticker := none, last := some 7, bid := some 10, ask := some 14 }
          mid := some 12
          delta_last := none
          pct_last := none
          delta_mid := none
          pct_mid := none
          delta_from_start := none
          pct_from_start := none }]) := by
  have h := enrich_null_ticker {}
    { ticker := none, last := some 7, bid := some 10, ask := some 14 } rfl
  norm_num at h
  exact h

theorem enrichOne_first_lookup (st : ScrapeState) (sec : Sec) (t : String) (v : Option ℚ)
    (h : lookupA st.first_prices t = some v) :
    lookupA (enrichOne st sec).1.first_prices t = some v := by
  cases ht : tickerOf sec with
  | none => simpa [enrichOne, ht] using h
  | some t' =>
      by_cases he : t' = t
      · subst he
        simp [enrichOne, ht, h]
      · cases hl : lookupA st.first_prices t' with
        | some w => simpa [enrichOne, ht, hl] using h
        | none =>
            cases hlast : sec.last with
            | none => simpa [enrichOne, ht, hl, hlast] using h
            | some l =>
                simpa [enrichOne, ht, hl, hlast,
                  lookupA_insertA_ne st.first_prices t' t (some l) (Ne.symm he)] using h

theorem enrichOne_pct_from_start (st : ScrapeState) (sec : Sec) (t : String) (v : Option ℚ)
    (h : lookupA st.first_prices t = some v) (ht : tickerOf sec = some t) :
    (enrichOne st sec).2.pct_from_start = pct_change sec.last v := by
  simp [enrichOne, ht, h]

/-- C4: a `first_prices` binding, once present, survives every enrichment pass
unchanged (even when `last` changes), and `pct_from_start` for a security with
that ticker is always computed against the originally stored value. -/
theorem first_prices_write_once (st : ScrapeState) (secs : List Sec) (t : String)
    (v : Option ℚ) (h : lookupA st.first_prices t = some v) :
    lookupA (enrich_securities st secs).1.first_prices t = some v ∧
    ∀ p ∈ secs.zip (enrich_securities st secs).2, tickerOf p.1 = some t →
      p.2.pct_from_start = pct_change p.1.last v := by
  induction secs generalizing st with
  | nil =>
      refine ⟨h, ?_⟩
      intro p hp
      simp [enrich_securities] at hp
  | cons s rest ih =>
      have hstep := enrichOne_first_lookup st s t v h
      obtain ⟨ih1, ih2⟩ := ih (enrichOne st s).1 hstep
      constructor
      · simpa [enrich_securities] using ih1
      · intro p hp hpt
        simp only [enrich_securities, List.zip_cons_cons, List.mem_cons] at hp
        rcases hp with hp | hp
        · subst hp
          exact enrichOne_pct_from_start st s t v h hpt
        · exact ih2 p hp hpt

def stW4 : ScrapeState := { first_prices := [("A", some 100)] }

def secW4 : Sec := { ticker := some "A", last := some 110, bid := none, ask := none }

theorem first_prices_write_once_witness :
    lookupA (enrich_securities stW4 [secW4]).1.first_prices "A" = some (some 100) ∧
    ∀ p ∈ [secW4].zip (enrich_securities stW4 [secW4]).2, tickerOf p.1 = some "A" →
      p.2.pct_from_start = pct_change p.1.last (some 100) :=
  first_prices_write_once stW4 [secW4] "A" (some 100) rfl

/-- C3: the Dedup Recorder skips items whose id (`item.get(id_key)`) is null
(absent or None) and items whose canonical fingerprint equals the one
currently stored under their key; for every other item it stores the new
fingerprint and emits exactly one record (firing on first sight and on any
content change); and the fingerprint is order-independent: objects with the
same bindings in any field order (no duplicate keys) fingerprint equally. -/
theorem record_items_dedup :
    (∀ (item : Json) (rest : List Json) (m : List (String × String)) (now idk lbl : String),
       pyGet item idk = Json.null →
       record_items (item :: rest) m now idk lbl = record_items rest m now idk lbl) ∧
    (∀ (item : Json) (rest : List Json) (m : List (String × String)) (now idk lbl : String),
       pyGet item idk ≠ Json.null →
       lookupA m (pyStr (pyGet item idk)) = some (fingerprint item) →
       record_items (item :: rest) m now idk lbl = record_items rest m now idk lbl) ∧
    (∀ (item : Json) (rest : List Json) (m : List (String × String)) (now idk lbl : String),
       pyGet item idk ≠ Json.null →
       lookupA m (pyStr (pyGet item idk)) ≠ some (fingerprint item) →
       record_items (item :: rest) m now idk lbl =
         (let out := record_items rest
            (insertA m (pyStr (pyGet item idk)) (fingerprint item)) now idk lbl
          (out.1, Json.obj [("ts", .str now), (lbl, item)] :: out.2.1, out.2.2 + 1))) ∧
    (∀ fs gs : List (String × Json), fs.Perm gs → (fs.map Prod.fst).Nodup →
       fingerprint (.obj fs) = fingerprint (.obj gs)) := by
  refine ⟨?_, ?_, ?_, fingerprint_perm⟩
  · intro item rest m now idk lbl h
    simp [record_items, h]
  · intro item rest m now idk lbl hne hl
    simp [record_items, hne, hl]
  · intro item rest m now idk lbl hne hl
    simp [record_items, hne, hl]

def itemW1 : Json := Json.obj [("x", Json.num 1)]

def itemW2 : Json := Json.obj [("tender_id", Json.str "5")]

def mapW : List (String × String) := [("5", fingerprint itemW2)]

def fsW : List (String × Json) := [("a", Json.num 1), ("b", Json.num 2)]

def gsW : List (String × Json) := [("b", Json.num 2), ("a", Json.num 1)]

theorem record_items_dedup_witness :
    (record_items [itemW1] [] "t" "tender_id" "tender"
       = record_items [] [] "t" "tender_id" "tender") ∧
    (record_items [itemW2] mapW "t" "tender_id" "tender"
       = record_items [] mapW "t" "tender_id" "tender") ∧
    (record_items [itemW2] [] "t" "tender_id" "tender" =
       (let out := record_items []
          (insertA [] (pyStr (pyGet itemW2 "tender_id")) (fingerprint itemW2)) "t" "tender_id" "tender"
        (out.1, Json.obj [("ts", .str "t"), ("tender", itemW2)] :: out.2.1, out.2.2 + 1))) ∧
    fingerprint (.obj fsW) = fingerprint (.obj gsW) := by
  refine ⟨?_, ?_, ?_, ?_⟩
  · exact record_items_dedup.1 itemW1 [] [] "t" "tender_id" "tender" rfl
  · exact record_items_dedup.2.1 itemW2 [] mapW "t" "tender_id" "tender" (by decide) rfl
  · exact record_items_dedup.2.2.1 itemW2 [] [] "t" "tender_id" "tender" (by decide)
      (fun h => Option.noConfusion h)
  · exact record_items_dedup.2.2.2 fsW gsW (List.Perm.swap _ _ _) (by decide)

/-- C5: in the TRACKING state, when only `tick` differs, exactly one event is
emitted — a `tick_change` whose elapsed seconds are `now_ts` minus the
previous tick anchor (null if no anchor) — `last_period_ts` is untouched, the
tick anchor moves to `now_ts`, the snapshot is stored; and in general the
events of a TRACKING cycle are emitted in the fixed order name, status,
period, tick. -/
theorem detect_tick_only (st : ScrapeState) (prev case : Json) (now_ts : ℚ) (now_str : String)
    (hprev : st.last_case = some prev)
    (hname : pyGet case "name" = pyGet prev "name")
    (hstatus : pyGet case "status" = pyGet prev "status")
    (hperiod : pyGet case "period" = pyGet prev "period")
    (htick : pyGet case "tick" ≠ pyGet prev "tick") :
    (detect_case_events st case now_ts now_str).2 =
      [CaseEvent.tick_change now_str (pyGet prev "tick") (pyGet case "tick")
        (st.last_tick_ts.map (fun t => now_ts - t))] ∧
    (detect_case_events st case now_ts now_str).1.last_period_ts = st.last_period_ts ∧
    (detect_case_events st case now_ts now_str).1.last_tick_ts = some now_ts ∧
    (detect_case_events st case now_ts now_str).1.last_case = some case ∧
    (∀ (st' : ScrapeState) (prev' case' : Json), st'.last_case = some prev' →
      (detect_case_events st' case' now_ts now_str).2 =
        (if pyGet case' "name" = pyGet prev' "name" then []
         else [CaseEvent.case_change now_str (pyGet prev' "name") (pyGet case' "name")]) ++
        (if pyGet case' "status" = pyGet prev' "status" then []
         else [CaseEvent.status_change now_str (pyGet prev' "status") (pyGet case' "status")]) ++
        (if pyGet case' "period" = pyGet prev' "period" then []
         else [CaseEvent.period_change now_str (pyGet prev' "period") (pyGet case' "period")
           (st'.last_period_ts.map (fun t => now_ts - t))]) ++
        (if pyGet case' "tick" = pyGet prev' "tick" then []
         else [CaseEvent.tick_change now_str (pyGet prev' "tick") (pyGet case' "tick")
           (st'.last_tick_ts.map (fun t => now_ts - t))])) := by
  refine ⟨?_, ?_, ?_, ?_, ?_⟩
  · simp [detect_case_events, hprev, hname, hstatus, hperiod, htick]
  · simp [detect_case_events, hprev, hperiod]
  · simp [detect_case_events, hprev, htick]
  · simp [detect_case_events, hprev]
  · intro st' prev' case' h
    simp only [detect_case_events, h]
    split_ifs <;> simp

def stW5 : ScrapeState :=
  { last_case := some (Json.obj [("name", .str "c"), ("tick", .num 3)])
    last_tick_ts := some 10
    last_period_ts := some 4 }

def caseW5 : Json := Json.obj [("name", .str "c"), ("tick", .num 4)]

def prevW5 : Json := Json.obj [("name", .str "c"), ("tick", .num 3)]

theorem detect_tick_only_witness :
    (detect_case_events stW5 caseW5 12 "t1").2 =
      [CaseEvent.tick_change "t1" (pyGet prevW5 "tick") (pyGet caseW5 "tick")
        (stW5.last_tick_ts.map (fun t => 12 - t))] ∧
    (detect_case_events stW5 caseW5 12 "t1").1.last_period_ts = stW5.last_period_ts ∧
    (detect_case_events stW5 caseW5 12 "t1").1.last_tick_ts = some 12 ∧
    (detect_case_events stW5 caseW5 12 "t1").1.last_case = some caseW5 := by
  have h := detect_tick_only stW5 prevW5 caseW5 12 "t1" rfl (by decide) (by decide)
    (by decide) (by decide)
  exact ⟨h.1, h.2.1, h.2.2.1, h.2.2.2.1⟩

/-- C1 counterexample: a negative `wait` field yields a wait of 0 seconds
(clamped by `max(float(wait), 0.0)`), not the 0.5-second fallback the claim
requires for negative candidates. -/
theorem retry_after_negative_cex :
    extract_retry_after (Json.obj [("wait", Json.num (-1))]) [] = 0 ∧
    (0 : ℚ) ≠ 1 / 2 := by
  constructor
  · decide
  · norm_num

theorem retry_loop_429_sleeps (o : Oracle) (url : String) (hdrs : List (String × String))
    (p : Json) (hs : List (String × String)) (hresp : o url hdrs = ⟨429, p, hs⟩) :
    ∀ fuel : ℕ, 1 ≤ fuel →
      (retry_loop o url hdrs fuel).2.2 = List.replicate fuel (extract_retry_after p hs) := by
  intro fuel
  induction fuel with
  | zero => intro h; omega
  | succ n ih =>
      intro _
      cases n with
      | zero => simp [retry_loop, hresp]
      | succ m =>
          have hrec := ih (Nat.le_add_left 1 m)
          simp [retry_loop, hresp, hrec, List.replicate_succ]

/-- C1 amended: the candidate wait is the payload's `wait` field when present
and non-null (numeric or not), else the `Retry-After` header; a candidate that
`float()` accepts yields `max(value, 0)` — negative values clamp to 0, not to
the fallback — while an unparsable or missing candidate yields the 0.5-second
fallback; and on a 429 response every retry attempt sleeps exactly that
extracted duration. -/
theorem retry_after_amended :
    (∀ (p : Json) (hdrs : List (String × String)) (q : ℚ),
       pyGet p "wait" = Json.num q → extract_retry_after p hdrs = max q 0) ∧
    (∀ (p : Json) (hdrs : List (String × String)) (s : String) (x : ℚ),
       pyGet p "wait" = Json.str s → parseFloat s = some x →
       extract_retry_after p hdrs = max x 0) ∧
    (∀ (p : Json) (hdrs : List (String × String)) (s : String),
       pyGet p "wait" = Json.str s → parseFloat s = none →
       extract_retry_after p hdrs = 1 / 2) ∧
    (∀ (p : Json) (hdrs : List (String × String)) (s : String) (x : ℚ),
       pyGet p "wait" = Json.null → lookupA hdrs "Retry-After" = some s →
       parseFloat s = some x → extract_retry_after p hdrs = max x 0) ∧
    (∀ (p : Json) (hdrs : List (String × String)) (s : String),
       pyGet p "wait" = Json.null → lookupA hdrs "Retry-After" = some s →
       parseFloat s = none → extract_retry_after p hdrs = 1 / 2) ∧
    (∀ (p : Json) (hdrs : List (String × String)),
       pyGet p "wait" = Json.null → lookupA hdrs "Retry-After" = none →
       extract_retry_after p hdrs = 1 / 2) ∧
    (∀ (o : Oracle) (url : String) (h : List (String × String)) (k : ℕ) (p : Json)
       (hs : List (String × String)), o url h = ⟨429, p, hs⟩ →
       (request_json_with_retry o url h k).2.2 =
         List.replicate (k + 1) (extract_retry_after p hs)) := by
  refine ⟨?_, ?_, ?_, ?_, ?_, ?_, ?_⟩
  · intro p hdrs q hw
    simp [extract_retry_after, hw, pyFloat]
  · intro p hdrs s x hw hp
    simp [extract_retry_after, hw, pyFloat, hp]
  · intro p hdrs s hw hp
    simp [extract_retry_after, hw, pyFloat, hp]
  · intro p hdrs s x hw hh hp
    simp [extract_retry_after, hw, hh, pyFloat, hp]
  · intro p hdrs s hw hh hp
    simp [extract_retry_after, hw, hh, pyFloat, hp]
  · intro p hdrs hw hh
    simp [extract_retry_after, hw, hh, pyFloat]
  · intro o url h k p hs hresp
    exact retry_loop_429_sleeps o url h p hs hresp (k + 1) (by omega)

def oracleW1 : Oracle := fun _ _ => ⟨429, Json.obj [("wait", Json.num 2)], []⟩

theorem retry_after_amended_witness :
    extract_retry_after (Json.obj [("wait", Json.num 2)]) [] = max 2 0 ∧
    extract_retry_after (Json.obj [("wait", Json.str "1.5")]) [] = max (3 / 2) 0 ∧
    extract_retry_after (Json.obj [("wait", Json.str "soon")]) [] = 1 / 2 ∧
    extract_retry_after Json.null [("Retry-After", "3")] = max 3 0 ∧
    extract_retry_after Json.null [("Retry-After", "x")] = 1 / 2 ∧
    extract_retry_after Json.null [] = 1 / 2 ∧
    (request_json_with_retry oracleW1 "u" [] 2).2.2 =
      List.replicate 3 (extract_retry_after (Json.obj [("wait", Json.num 2)]) []) := by
  refine ⟨?_, ?_, ?_, ?_, ?_, ?_, ?_⟩
  · exact retry_after_amended.1 _ [] 2 rfl
  · refine retry_after_amended.2.1 _ [] "1.5" (3 / 2) rfl ?_
    have h1 : pyStrip "1.5" = ['1', '.', '5'] := by decide
    simp [parseFloat, h1, digitsVal]
    norm_num
  · exact retry_after_amended.2.2.1 _ [] "soon" rfl rfl
  · refine retry_after_amended.2.2.2.1 _ [("Retry-After", "3")] "3" 3 rfl rfl ?_
    have h1 : pyStrip "3" = ['3'] := by decide
    simp [parseFloat, h1, digitsVal]
  · exact retry_after_amended.2.2.2.2.1 _ [("Retry-After", "x")] "x" rfl rfl rfl
  · exact retry_after_amended.2.2.2.2.2.1 Json.null [] rfl rfl
  · exact retry_after_amended.2.2.2.2.2.2 oracleW1 "u" [] 2 _ [] rfl

theorem retry_loop_resp (o : Oracle) (url : String) (hdrs : List (String × String)) :
    ∀ fuel : ℕ, (retry_loop o url hdrs fuel).1 = o url hdrs := by
  intro fuel
  induction fuel with
  | zero => rfl
  | succ n ih =>
      cases n with
      | zero => by_cases h : (o url hdrs).status = 429 <;> simp [retry_loop, h]
      | succ m => by_cases h : (o url hdrs).status = 429 <;> simp [retry_loop, h, ih]

theorem retry_loop_urls (o : Oracle) (url : String) (hdrs : List (String × String)) :
    ∀ fuel : ℕ, ∀ u ∈ (retry_loop o url hdrs fuel).2.1, u = url := by
  intro fuel
  induction fuel with
  | zero => simp [retry_loop]
  | succ n ih =>
      cases n with
      | zero =>
          by_cases h : (o url hdrs).status = 429 <;> simp [retry_loop, h]
      | succ m =>
          by_cases h : (o url hdrs).status = 429
          · intro u hu
            simp [retry_loop, h, List.mem_cons] at hu
            rcases hu with hu | hu
            · exact hu
            · exact ih u hu
          · intro u hu
            simp [retry_loop, h] at hu
            exact hu

theorem request_resp (o : Oracle) (url : String) (hdrs : List (String × String)) (k : ℕ) :
    (request_json_with_retry o url hdrs k).1 = o url hdrs :=
  retry_loop_resp o url hdrs (k + 1)

theorem request_urls (o : Oracle) (url : String) (hdrs : List (String × String)) (k : ℕ) :
    ∀ u ∈ (request_json_with_retry o url hdrs k).2.1, u = url :=
  retry_loop_urls o url hdrs (k + 1)

theorem ne_of_length_ne {s t : String} (h : s.length ≠ t.length) : s ≠ t :=
  fun he => h (he ▸ rfl)

theorem build_url_noparams (b path p' : String) (hp : lstripSlash path = p')
    (hne : ¬p' = "") : build_url b path [] = rstripSlash b ++ "/" ++ p' := by
  simp [build_url, hp, hne]

theorem build_url_params (b path p' : String) (ps : List (String × String))
    (hp : lstripSlash path = p') (hne : ¬p' = "") (hps : ps ≠ []) :
    build_url b path ps = rstripSlash b ++ "/" ++ p' ++ "?" ++ urlencode ps := by
  simp [build_url, hp, hne, hps]

theorem build_url_noparams_length (b path p' : String) (hp : lstripSlash path = p')
    (hne : ¬p' = "") :
    (build_url b path []).length = (rstripSlash b).length + 1 + p'.length := by
  have h1 : ("/" : String).length = 1 := rfl
  rw [build_url_noparams b path p' hp hne, String.length_append, String.length_append, h1]

theorem build_url_params_length (b path p' : String) (ps : List (String × String))
    (hp : lstripSlash path = p') (hne : ¬p' = "") (hps : ps ≠ []) :
    (build_url b path ps).length =
      (rstripSlash b).length + 1 + p'.length + 1 + (urlencode ps).length := by
  have h1 : ("/" : String).length = 1 := rfl
  have h2 : ("?" : String).length = 1 := rfl
  rw [build_url_params b path p' ps hp hne hps, String.length_append, String.length_append,
    String.length_append, String.length_append, h1, h2]

theorem urlencode_cons_length (k v : String) (rest : List (String × String)) :
    k.length + 1 ≤ (urlencode ((k, v) :: rest)).length := by
  have he : ("=" : String).length = 1 := rfl
  cases rest with
  | nil =>
      simp only [urlencode, String.length_append, he]
      omega
  | cons p ps =>
      simp only [urlencode, String.length_append, he]
      omega

theorem detect_disabled (st : ScrapeState) (c : Json) (ts : ℚ) (ns : String) :
    (detect_case_events st c ts ns).1.disabled_endpoints = st.disabled_endpoints := by
  cases h : st.last_case <;> simp [detect_case_events, h]

theorem enrichOne_disabled (st : ScrapeState) (s : Sec) :
    (enrichOne st s).1.disabled_endpoints = st.disabled_endpoints := by
  cases ht : tickerOf s with
  | none => simp [enrichOne, ht]
  | some t =>
      by_cases hl : (lookupA st.first_prices t).isNone <;>
        cases hlast : s.last <;> simp [enrichOne, ht, hl, hlast]

theorem enrich_securities_disabled (st : ScrapeState) (secs : List Sec) :
    (enrich_securities st secs).1.disabled_endpoints = st.disabled_endpoints := by
  induction secs generalizing st with
  | nil => rfl
  | cons s rest ih =>
      simp [enrich_securities, ih, enrichOne_disabled]

theorem foldl_disabled {α : Type} (f : ScrapeState → α → ScrapeState)
    (hf : ∀ s x, (f s x).disabled_endpoints = s.disabled_endpoints) :
    ∀ (l : List α) (s : ScrapeState),
      (l.foldl f s).disabled_endpoints = s.disabled_endpoints := by
  intro l
  induction l with
  | nil => intro s; rfl
  | cons x xs ih => intro s; rw [List.foldl_cons, ih, hf]

theorem news_step_disabled (o : Oracle) (cfg : ClientConfig) (st : ScrapeState) (args : Args) :
    (news_step o cfg st args).1.disabled_endpoints = st.disabled_endpoints := by
  simp only [news_step]
  split
  · rfl
  · split
    · exact foldl_disabled _ (fun s item => by cases h : pyGet item "news_id" <;> simp [h]) _ _
    · rfl

theorem tenders_step_disabled_mono (o : Oracle) (cfg : ClientConfig) (st : ScrapeState)
    (ns : String) :
    st.disabled_endpoints ⊆ (tenders_step o cfg st ns).1.disabled_endpoints := by
  simp only [tenders_step]
  split
  · exact Finset.subset_insert _ _
  · split
    · exact Finset.Subset.refl _
    · split
      · exact Finset.Subset.refl _
      · exact Finset.Subset.refl _

theorem leases_step_disabled_mono (o : Oracle) (cfg : ClientConfig) (st : ScrapeState)
    (ns : String) :
    st.disabled_endpoints ⊆ (leases_step o cfg st ns).1.disabled_endpoints := by
  simp only [leases_step]
  split
  · exact Finset.subset_insert _ _
  · split
    · exact Finset.Subset.refl _
    · split
      · exact Finset.Subset.refl _
      · exact Finset.Subset.refl _

theorem tenders_step_404 (o : Oracle) (cfg : ClientConfig) (st : ScrapeState) (ns : String)
    (h : (o (build_url cfg.base_url "/v1/tenders" []) cfg.headers).status = 404) :
    (tenders_step o cfg st ns).1.disabled_endpoints =
      insert "tenders" st.disabled_endpoints := by
  simp [tenders_step, request_resp, h]

theorem books_step_urls (o : Oracle) (cfg : ClientConfig) (limit : ℕ) :
    ∀ (ts : List String), ∀ u ∈ (books_step o cfg limit ts).1,
      ∃ t, u = build_url cfg.base_url "/v1/securities/book"
        [("ticker", t), ("limit", toString limit)] := by
  intro ts
  induction ts with
  | nil => simp [books_step]
  | cons t rest ih =>
      intro u hu
      simp only [books_step] at hu
      split at hu
      · rw [List.mem_append] at hu
        rcases hu with hu | hu
        · exact ⟨t, request_urls o _ cfg.headers 2 u hu⟩
        · exact ih u hu
      · split at hu
        · exact ⟨t, request_urls o _ cfg.headers 2 u hu⟩
        · rw [List.mem_append] at hu
          rcases hu with hu | hu
          · exact ⟨t, request_urls o _ cfg.headers 2 u hu⟩
          · exact ih u hu

theorem news_step_urls (o : Oracle) (cfg : ClientConfig) (st : ScrapeState) (args : Args) :
    ∀ u ∈ (news_step o cfg st args).2.1,
      ∃ extra, u = build_url cfg.base_url "/v1/news"
        (("limit", toString args.news_limit) :: extra) := by
  intro u hu
  simp only [news_step] at hu
  split at hu
  · exact ⟨_, request_urls o _ cfg.headers 2 u hu⟩
  · split at hu
    · exact ⟨_, request_urls o _ cfg.headers 2 u hu⟩
    · exact ⟨_, request_urls o _ cfg.headers 2 u hu⟩

theorem tenders_step_urls (o : Oracle) (cfg : ClientConfig) (st : ScrapeState) (ns : String) :
    ∀ u ∈ (tenders_step o cfg st ns).2.1, u = build_url cfg.base_url "/v1/tenders" [] := by
  intro u hu
  simp only [tenders_step] at hu
  split at hu
  · exact request_urls o _ cfg.headers 2 u hu
  · split at hu
    · exact request_urls o _ cfg.headers 2 u hu
    · split at hu
      · exact request_urls o _ cfg.headers 2 u hu
      · exact request_urls o _ cfg.headers 2 u hu

theorem leases_step_urls (o : Oracle) (cfg : ClientConfig) (st : ScrapeState) (ns : String) :
    ∀ u ∈ (leases_step o cfg st ns).2.1, u = build_url cfg.base_url "/v1/leases" [] := by
  intro u hu
  simp only [leases_step] at hu
  split at hu
  · exact request_urls o _ cfg.headers 2 u hu
  · split at hu
    · exact request_urls o _ cfg.headers 2 u hu
    · split at hu
      · exact request_urls o _ cfg.headers 2 u hu
      · exact request_urls o _ cfg.headers 2 u hu

theorem poll_once_case_fail (o : Oracle) (cfg : ClientConfig) (st : ScrapeState) (args : Args)
    (now_ts : ℚ) (now_str : String)
    (h : (o (build_url cfg.base_url "/v1/case" []) cfg.headers).status ≠ 200) :
    poll_once o cfg st args now_ts now_str =
      ⟨st,
       (request_json_with_retry o (build_url cfg.base_url "/v1/case" []) cfg.headers 2).2.1,
       [], none,
       ensure_ok (o (build_url cfg.base_url "/v1/case" []) cfg.headers).status "case"⟩ := by
  simp only [poll_once, request_resp]
  split
  · next heq => simp [heq]
  · next heq => simp [h, heq]

theorem poll_once_sec_fail (o : Oracle) (cfg : ClientConfig) (st : ScrapeState) (args : Args)
    (now_ts : ℚ) (now_str : String)
    (hc : (o (build_url cfg.base_url "/v1/case" []) cfg.headers).status = 200)
    (hs : (o (build_url cfg.base_url "/v1/securities" []) cfg.headers).status ≠ 200 ∨
          asArr (o (build_url cfg.base_url "/v1/securities" []) cfg.headers).payload = none) :
    poll_once o cfg st args now_ts now_str =
      ⟨(detect_case_events st
          (o (build_url cfg.base_url "/v1/case" []) cfg.headers).payload now_ts now_str).1,
       (request_json_with_retry o (build_url cfg.base_url "/v1/case" []) cfg.headers 2).2.1 ++
         (request_json_with_retry o (build_url cfg.base_url "/v1/securities" [])
           cfg.headers 2).2.1,
       (detect_case_events st
          (o (build_url cfg.base_url "/v1/case" []) cfg.headers).payload now_ts now_str).2,
       none,
       ensure_ok (o (build_url cfg.base_url "/v1/securities" []) cfg.headers).status
         "securities"⟩ := by
  have hok : ensure_ok (o (build_url cfg.base_url "/v1/case" []) cfg.headers).status "case"
      = none := by rw [hc]; rfl
  have hsc : (if (o (build_url cfg.base_url "/v1/securities" []) cfg.headers).status = 200
      then asArr (o (build_url cfg.base_url "/v1/securities" []) cfg.headers).payload
      else none) = none := by
    rcases hs with hs | hs
    · simp [hs]
    · by_cases h2 : (o (build_url cfg.base_url "/v1/securities" []) cfg.headers).status = 200 <;>
        simp [h2, hs]
  simp only [poll_once, request_resp, hok]
  rw [if_pos hc]
  split
  · next heq => simp [heq]
  · next heq => simp [heq, hsc]

theorem subset_of_eqF {a b : Finset String} (h : a = b) : a ⊆ b := by
  rw [h]

theorem poll_disabled_mono (o : Oracle) (cfg : ClientConfig) (st : ScrapeState) (args : Args)
    (now_ts : ℚ) (now_str : String) :
    st.disabled_endpoints ⊆ (poll_once o cfg st args now_ts now_str).state.disabled_endpoints := by
  simp only [poll_once, request_resp]
  split
  · exact Finset.Subset.refl _
  · split
    · split
      · rw [detect_disabled]
      · split
        · rw [detect_disabled]
        · rename_i items heq
          set DC := detect_case_events st
            (o (build_url cfg.base_url "/v1/case" []) cfg.headers).payload now_ts now_str
            with hDCdef
          set EN := enrich_securities DC.1 (List.map secOfJson items) with hENdef
          set BK : List String × Option String :=
            (if args.skip_books = true then ([], none)
             else books_step o cfg args.book_limit
               (select_book_tickers (List.filterMap tickerOf (List.map secOfJson items)) args))
            with hBKdef
          set NW : ScrapeState × List String × Option String :=
            (if args.skip_news = true then (EN.1, [], none) else news_step o cfg EN.1 args)
            with hNWdef
          set TD : ScrapeState × List String × Option String :=
            (if args.skip_tenders = true ∨ "tenders" ∈ NW.1.disabled_endpoints
             then (NW.1, [], none) else tenders_step o cfg NW.1 now_str) with hTDdef
          set LE : ScrapeState × List String × Option String :=
            (if args.skip_leases = true ∨ "leases" ∈ TD.1.disabled_endpoints
             then (TD.1, [], none) else leases_step o cfg TD.1 now_str) with hLEdef
          have hDC : DC.1.disabled_endpoints = st.disabled_endpoints := by
            rw [hDCdef]
            exact detect_disabled st _ now_ts now_str
          have hEN : EN.1.disabled_endpoints = st.disabled_endpoints := by
            rw [hENdef, enrich_securities_disabled]
            exact hDC
          have hNW1 : NW.1.disabled_endpoints = st.disabled_endpoints := by
            rw [hNWdef]
            split
            · exact hEN
            · rw [news_step_disabled]
              exact hEN
          have hTD1 : st.disabled_endpoints ⊆ TD.1.disabled_endpoints := by
            rw [hTDdef]
            split
            · exact subset_of_eqF hNW1.symm
            · refine Finset.Subset.trans ?_ (tenders_step_disabled_mono o cfg NW.1 now_str)
              exact subset_of_eqF hNW1.symm
          have hLE1 : st.disabled_endpoints ⊆ LE.1.disabled_endpoints := by
            rw [hLEdef]
            split
            · exact hTD1
            · exact Finset.Subset.trans hTD1 (leases_step_disabled_mono o cfg TD.1 now_str)
          split
          · exact subset_of_eqF hEN.symm
          · split
            · exact subset_of_eqF hNW1.symm
            · split
              · exact hTD1
              · split
                · exact hLE1
                · exact hLE1
    · exact Finset.Subset.refl _

theorem case_ne_tenders (b : String) :
    build_url b "/v1/case" [] ≠ build_url b "/v1/tenders" [] := by
  apply ne_of_length_ne
  rw [build_url_noparams_length b "/v1/case" "v1/case" rfl (by decide),
      build_url_noparams_length b "/v1/tenders" "v1/tenders" rfl (by decide)]
  have h1 : ("v1/case" : String).length = 7 := rfl
  have h2 : ("v1/tenders" : String).length = 10 := rfl
  omega

theorem sec_ne_tenders (b : String) :
    build_url b "/v1/securities" [] ≠ build_url b "/v1/tenders" [] := by
  apply ne_of_length_ne
  rw [build_url_noparams_length b "/v1/securities" "v1/securities" rfl (by decide),
      build_url_noparams_length b "/v1/tenders" "v1/tenders" rfl (by decide)]
  have h1 : ("v1/securities" : String).length = 13 := rfl
  have h2 : ("v1/tenders" : String).length = 10 := rfl
  omega

theorem leases_ne_tenders (b : String) :
    build_url b "/v1/leases" [] ≠ build_url b "/v1/tenders" [] := by
  apply ne_of_length_ne
  rw [build_url_noparams_length b "/v1/leases" "v1/leases" rfl (by decide),
      build_url_noparams_length b "/v1/tenders" "v1/tenders" rfl (by decide)]
  have h1 : ("v1/leases" : String).length = 9 := rfl
  have h2 : ("v1/tenders" : String).length = 10 := rfl
  omega

theorem book_ne_tenders (b t lim : String) :
    build_url b "/v1/securities/book" [("ticker", t), ("limit", lim)] ≠
      build_url b "/v1/tenders" [] := by
  apply ne_of_length_ne
  rw [build_url_params_length b "/v1/securities/book" "v1/securities/book"
        [("ticker", t), ("limit", lim)] rfl (by decide) (by simp),
      build_url_noparams_length b "/v1/tenders" "v1/tenders" rfl (by decide)]
  have h1 : ("v1/securities/book" : String).length = 18 := rfl
  have h2 : ("v1/tenders" : String).length = 10 := rfl
  omega

theorem news_ne_tenders (b lim : String) (extra : List (String × String)) :
    build_url b "/v1/news" (("limit", lim) :: extra) ≠ build_url b "/v1/tenders" [] := by
  apply ne_of_length_ne
  rw [build_url_params_length b "/v1/news" "v1/news" (("limit", lim) :: extra) rfl
        (by decide) (by simp),
      build_url_noparams_length b "/v1/tenders" "v1/tenders" rfl (by decide)]
  have henc := urlencode_cons_length "limit" lim extra
  have h1 : ("v1/news" : String).length = 7 := rfl
  have h2 : ("v1/tenders" : String).length = 10 := rfl
  have h3 : ("limit" : String).length = 5 := rfl
  omega

theorem poll_once_success (o : Oracle) (cfg : ClientConfig) (st : ScrapeState) (args : Args)
    (now_ts : ℚ) (now_str : String)
    (hc : (o (build_url cfg.base_url "/v1/case" []) cfg.headers).status = 200)
    (hs : (o (build_url cfg.base_url "/v1/securities" []) cfg.headers).status = 200)
    (ha : asArr (o (build_url cfg.base_url "/v1/securities" []) cfg.headers).payload ≠ none)
    (hf : (poll_once o cfg st args now_ts now_str).fatal = none) :
    (poll_once o cfg st args now_ts now_str).checkpoint =
      some ((poll_once o cfg st args now_ts now_str).state.save) := by
  obtain ⟨items, hitems⟩ : ∃ xs,
      asArr (o (build_url cfg.base_url "/v1/securities" []) cfg.headers).payload = some xs := by
    cases hx : asArr (o (build_url cfg.base_url "/v1/securities" []) cfg.headers).payload with
    | none => exact absurd hx ha
    | some xs => exact ⟨xs, rfl⟩
  have hok : ensure_ok (o (build_url cfg.base_url "/v1/case" []) cfg.headers).status "case"
      = none := by rw [hc]; rfl
  have hok2 : ensure_ok (o (build_url cfg.base_url "/v1/securities" []) cfg.headers).status
      "securities" = none := by rw [hs]; rfl
  have hsc : (if (o (build_url cfg.base_url "/v1/securities" []) cfg.headers).status = 200
      then asArr (o (build_url cfg.base_url "/v1/securities" []) cfg.headers).payload
      else none) = some items := by rw [if_pos hs, hitems]
  revert hf
  simp only [poll_once, request_resp, hok, hok2, hsc]
  rw [if_pos hc]
  split
  · intro h
    exact absurd h (by simp)
  · split
    · intro h
      exact absurd h (by simp)
    · split
      · intro h
        exact absurd h (by simp)
      · split
        · intro h
          exact absurd h (by simp)
        · intro _
          rfl

theorem poll_tenders_404 (o : Oracle) (cfg : ClientConfig) (st : ScrapeState) (args : Args)
    (now_ts : ℚ) (now_str : String)
    (hc : (o (build_url cfg.base_url "/v1/case" []) cfg.headers).status = 200)
    (hs : (o (build_url cfg.base_url "/v1/securities" []) cfg.headers).status = 200)
    (ha : asArr (o (build_url cfg.base_url "/v1/securities" []) cfg.headers).payload ≠ none)
    (hskip : args.skip_tenders = false)
    (h404 : (o (build_url cfg.base_url "/v1/tenders" []) cfg.headers).status = 404)
    (hf : (poll_once o cfg st args now_ts now_str).fatal = none) :
    "tenders" ∈ (poll_once o cfg st args now_ts now_str).state.disabled_endpoints := by
  by_cases hmem : "tenders" ∈ st.disabled_endpoints
  · exact poll_disabled_mono o cfg st args now_ts now_str hmem
  · obtain ⟨items, hitems⟩ : ∃ xs,
        asArr (o (build_url cfg.base_url "/v1/securities" []) cfg.headers).payload
          = some xs := by
      cases hx : asArr (o (build_url cfg.base_url "/v1/securities" []) cfg.headers).payload with
      | none => exact absurd hx ha
      | some xs => exact ⟨xs, rfl⟩
    have hok : ensure_ok (o (build_url cfg.base_url "/v1/case" []) cfg.headers).status "case"
        = none := by rw [hc]; rfl
    have hok2 : ensure_ok (o (build_url cfg.base_url "/v1/securities" []) cfg.headers).status
        "securities" = none := by rw [hs]; rfl
    have hsc : (if (o (build_url cfg.base_url "/v1/securities" []) cfg.headers).status = 200
        then asArr (o (build_url cfg.base_url "/v1/securities" []) cfg.headers).payload
        else none) = some items := by rw [if_pos hs, hitems]
    revert hf
    simp only [poll_once, request_resp, hok, hok2, hsc]
    rw [if_pos hc]
    set DC := detect_case_events st
      (o (build_url cfg.base_url "/v1/case" []) cfg.headers).payload now_ts now_str
      with hDCdef
    set EN := enrich_securities DC.1 (List.map secOfJson items) with hENdef
    set BK : List String × Option String :=
      (if args.skip_books = true then ([], none)
       else books_step o cfg args.book_limit
         (select_book_tickers (List.filterMap tickerOf (List.map secOfJson items)) args))
      with hBKdef
    set NW : ScrapeState × List String × Option String :=
      (if args.skip_news = true then (EN.1, [], none) else news_step o cfg EN.1 args)
      with hNWdef
    set TD : ScrapeState × List String × Option String :=
      (if args.skip_tenders = true ∨ "tenders" ∈ NW.1.disabled_endpoints
       then (NW.1, [], none) else tenders_step o cfg NW.1 now_str) with hTDdef
    set LE : ScrapeState × List String × Option String :=
      (if args.skip_leases = true ∨ "leases" ∈ TD.1.disabled_endpoints
       then (TD.1, [], none) else leases_step o cfg TD.1 now_str) with hLEdef
    have hDC : DC.1.disabled_endpoints = st.disabled_endpoints := by
      rw [hDCdef]
      exact detect_disabled st _ now_ts now_str
    have hEN : EN.1.disabled_endpoints = st.disabled_endpoints := by
      rw [hENdef, enrich_securities_disabled]
      exact hDC
    have hNW1 : NW.1.disabled_endpoints = st.disabled_endpoints := by
      rw [hNWdef]
      split
      · exact hEN
      · rw [news_step_disabled]
        exact hEN
    have hcond : ¬(args.skip_tenders = true ∨ "tenders" ∈ NW.1.disabled_endpoints) := by
      rw [hskip, hNW1]
      simp [hmem]
    have hTD404 : TD.1.disabled_endpoints = insert "tenders" NW.1.disabled_endpoints := by
      rw [hTDdef, if_neg hcond]
      exact tenders_step_404 o cfg NW.1 now_str h404
    have hmemTD : "tenders" ∈ TD.1.disabled_endpoints := by
      rw [hTD404]
      exact Finset.mem_insert_self _ _
    have hmemLE : "tenders" ∈ LE.1.disabled_endpoints := by
      rw [hLEdef]
      split
      · exact hmemTD
      · exact leases_step_disabled_mono o cfg TD.1 now_str hmemTD
    split
    · intro h
      exact absurd h (by simp)
    · split
      · intro h
        exact absurd h (by simp)
      · split
        · intro h
          exact absurd h (by simp)
        · split
          · intro _
            exact hmemLE
          · intro _
            exact hmemLE

theorem poll_no_tenders_request (o : Oracle) (cfg : ClientConfig) (st : ScrapeState)
    (args : Args) (now_ts : ℚ) (now_str : String)
    (hmem : "tenders" ∈ st.disabled_endpoints) :
    build_url cfg.base_url "/v1/tenders" [] ∉ (poll_once o cfg st args now_ts now_str).urls := by
  intro hcontra
  have hRCne : ∀ u ∈ (request_json_with_retry o (build_url cfg.base_url "/v1/case" [])
      cfg.headers 2).2.1, u ≠ build_url cfg.base_url "/v1/tenders" [] := by
    intro u hu
    rw [request_urls o _ cfg.headers 2 u hu]
    exact case_ne_tenders cfg.base_url
  have hRSne : ∀ u ∈ (request_json_with_retry o (build_url cfg.base_url "/v1/securities" [])
      cfg.headers 2).2.1, u ≠ build_url cfg.base_url "/v1/tenders" [] := by
    intro u hu
    rw [request_urls o _ cfg.headers 2 u hu]
    exact sec_ne_tenders cfg.base_url
  simp only [poll_once, request_resp] at hcontra
  split at hcontra
  · exact hRCne _ hcontra rfl
  · split at hcontra
    · split at hcontra
      · rw [List.mem_append] at hcontra
        rcases hcontra with h | h
        · exact hRCne _ h rfl
        · exact hRSne _ h rfl
      · split at hcontra
        · rw [List.mem_append] at hcontra
          rcases hcontra with h | h
          · exact hRCne _ h rfl
          · exact hRSne _ h rfl
        · rename_i items heq
          set DC := detect_case_events st
            (o (build_url cfg.base_url "/v1/case" []) cfg.headers).payload now_ts now_str
            with hDCdef
          set EN := enrich_securities DC.1 (List.map secOfJson items) with hENdef
          set BK : List String × Option String :=
            (if args.skip_books = true then ([], none)
             else books_step o cfg args.book_limit
               (select_book_tickers (List.filterMap tickerOf (List.map secOfJson items)) args))
            with hBKdef
          set NW : ScrapeState × List String × Option String :=
            (if args.skip_news = true then (EN.1, [], none) else news_step o cfg EN.1 args)
            with hNWdef
          set TD : ScrapeState × List String × Option String :=
            (if args.skip_tenders = true ∨ "tenders" ∈ NW.1.disabled_endpoints
             then (NW.1, [], none) else tenders_step o cfg NW.1 now_str) with hTDdef
          set LE : ScrapeState × List String × Option String :=
            (if args.skip_leases = true ∨ "leases" ∈ TD.1.disabled_endpoints
             then (TD.1, [], none) else leases_step o cfg TD.1 now_str) with hLEdef
          have hDC : DC.1.disabled_endpoints = st.disabled_endpoints := by
            rw [hDCdef]
            exact detect_disabled st _ now_ts now_str
          have hEN : EN.1.disabled_endpoints = st.disabled_endpoints := by
            rw [hENdef, enrich_securities_disabled]
            exact hDC
          have hNW1 : NW.1.disabled_endpoints = st.disabled_endpoints := by
            rw [hNWdef]
            split
            · exact hEN
            · rw [news_step_disabled]
              exact hEN
          have hBKne : ∀ u ∈ BK.1, u ≠ build_url cfg.base_url "/v1/tenders" [] := by
            rw [hBKdef]
            split
            · simp
            · intro u hu
              obtain ⟨t, ht⟩ := books_step_urls o cfg args.book_limit _ u hu
              rw [ht]
              exact book_ne_tenders cfg.base_url t (toString args.book_limit)
          have hNWne : ∀ u ∈ NW.2.1, u ≠ build_url cfg.base_url "/v1/tenders" [] := by
            rw [hNWdef]
            split
            · simp
            · intro u hu
              obtain ⟨extra, hx⟩ := news_step_urls o cfg EN.1 args u hu
              rw [hx]
              exact news_ne_tenders cfg.base_url (toString args.news_limit) extra
          have hTDempty : TD.2.1 = [] := by
            rw [hTDdef, if_pos (Or.inr (by rw [hNW1]; exact hmem))]
          have hLEne : ∀ u ∈ LE.2.1, u ≠ build_url cfg.base_url "/v1/tenders" [] := by
            rw [hLEdef]
            split
            · simp
            · intro u hu
              rw [leases_step_urls o cfg TD.1 now_str u hu]
              exact leases_ne_tenders cfg.base_url
          split at hcontra
          · simp only [List.mem_append] at hcontra
            rcases hcontra with (h | h) | h
            · exact hRCne _ h rfl
            · exact hRSne _ h rfl
            · exact hBKne _ h rfl
          · split at hcontra
            · simp only [List.mem_append] at hcontra
              rcases hcontra with ((h | h) | h) | h
              · exact hRCne _ h rfl
              · exact hRSne _ h rfl
              · exact hBKne _ h rfl
              · exact hNWne _ h rfl
            · split at hcontra
              · simp only [List.mem_append, hTDempty] at hcontra
                rcases hcontra with (((h | h) | h) | h) | h
                · exact hRCne _ h rfl
                · exact hRSne _ h rfl
                · exact hBKne _ h rfl
                · exact hNWne _ h rfl
                · exact absurd h (List.not_mem_nil _)
              · split at hcontra
                · simp only [List.mem_append, hTDempty] at hcontra
                  rcases hcontra with ((((h | h) | h) | h) | h) | h
                  · exact hRCne _ h rfl
                  · exact hRSne _ h rfl
                  · exact hBKne _ h rfl
                  · exact hNWne _ h rfl
                  · exact absurd h (List.not_mem_nil _)
                  · exact hLEne _ h rfl
                · simp only [List.mem_append, hTDempty] at hcontra
                  rcases hcontra with ((((h | h) | h) | h) | h) | h
                  · exact hRCne _ h rfl
                  · exact hRSne _ h rfl
                  · exact hBKne _ h rfl
                  · exact hNWne _ h rfl
                  · exact absurd h (List.not_mem_nil _)
                  · exact hLEne _ h rfl
    · exact hRCne _ hcontra rfl

/-- C2: a non-200 case fetch aborts the cycle having requested only the case
URL and writes no checkpoint; a failed or non-list securities fetch aborts
having requested only the case and securities URLs and writes no checkpoint
(the previous checkpoint file is untouched in both cases); and every cycle
that runs to the end of the sequence (no abort, no raised error) writes the
checkpoint of the final state unconditionally. -/
theorem poll_abort_policy :
    (∀ (o : Oracle) (cfg : ClientConfig) (st : ScrapeState) (args : Args) (now_ts : ℚ)
       (now_str : String),
       (o (build_url cfg.base_url "/v1/case" []) cfg.headers).status ≠ 200 →
       (∀ u ∈ (poll_once o cfg st args now_ts now_str).urls,
          u = build_url cfg.base_url "/v1/case" []) ∧
       (poll_once o cfg st args now_ts now_str).checkpoint = none) ∧
    (∀ (o : Oracle) (cfg : ClientConfig) (st : ScrapeState) (args : Args) (now_ts : ℚ)
       (now_str : String),
       (o (build_url cfg.base_url "/v1/case" []) cfg.headers).status = 200 →
       ((o (build_url cfg.base_url "/v1/securities" []) cfg.headers).status ≠ 200 ∨
         asArr (o (build_url cfg.base_url "/v1/securities" []) cfg.headers).payload = none) →
       (∀ u ∈ (poll_once o cfg st args now_ts now_str).urls,
          u = build_url cfg.base_url "/v1/case" [] ∨
          u = build_url cfg.base_url "/v1/securities" []) ∧
       (poll_once o cfg st args now_ts now_str).checkpoint = none) ∧
    (∀ (o : Oracle) (cfg : ClientConfig) (st : ScrapeState) (args : Args) (now_ts : ℚ)
       (now_str : String),
       (o (build_url cfg.base_url "/v1/case" []) cfg.headers).status = 200 →
       (o (build_url cfg.base_url "/v1/securities" []) cfg.headers).status = 200 →
       asArr (o (build_url cfg.base_url "/v1/securities" []) cfg.headers).payload ≠ none →
       (poll_once o cfg st args now_ts now_str).fatal = none →
       (poll_once o cfg st args now_ts now_str).checkpoint =
         some ((poll_once o cfg st args now_ts now_str).state.save)) := by
  refine ⟨?_, ?_, poll_once_success⟩
  · intro o cfg st args now_ts now_str h
    rw [poll_once_case_fail o cfg st args now_ts now_str h]
    exact ⟨request_urls o _ cfg.headers 2, rfl⟩
  · intro o cfg st args now_ts now_str hc hs
    rw [poll_once_sec_fail o cfg st args now_ts now_str hc hs]
    constructor
    · intro u hu
      rw [List.mem_append] at hu
      rcases hu with hu | hu
      · exact Or.inl (request_urls o _ cfg.headers 2 u hu)
      · exact Or.inr (request_urls o _ cfg.headers 2 u hu)
    · rfl

def cfgW : ClientConfig := { base_url := "b", headers := [], mode := "dma" }

def argsW : Args :=
  { book_limit := 10, book_tickers := none, book_max := none, skip_books := true
    news_limit := 20, skip_news := true, skip_tenders := true, skip_leases := true }

def oW500 : Oracle := fun _ _ => ⟨500, Json.null, []⟩

def oWsecfail : Oracle := fun u _ =>
  if u = build_url "b" "/v1/securities" [] then ⟨500, Json.null, []⟩
  else ⟨200, Json.arr [], []⟩

def oW200 : Oracle := fun _ _ => ⟨200, Json.arr [], []⟩

theorem poll_abort_policy_witness :
    ((∀ u ∈ (poll_once oW500 cfgW {} argsW 0 "t").urls, u = build_url "b" "/v1/case" []) ∧
       (poll_once oW500 cfgW {} argsW 0 "t").checkpoint = none) ∧
    ((∀ u ∈ (poll_once oWsecfail cfgW {} argsW 0 "t").urls,
        u = build_url "b" "/v1/case" [] ∨ u = build_url "b" "/v1/securities" []) ∧
       (poll_once oWsecfail cfgW {} argsW 0 "t").checkpoint = none) ∧
    (poll_once oW200 cfgW {} argsW 0 "t").checkpoint =
      some ((poll_once oW200 cfgW {} argsW 0 "t").state.save) := by
  refine ⟨?_, ?_, ?_⟩
  · exact poll_abort_policy.1 oW500 cfgW {} argsW 0 "t" (by decide)
  · exact poll_abort_policy.2.1 oWsecfail cfgW {} argsW 0 "t" (by decide) (Or.inl (by decide))
  · exact poll_abort_policy.2.2 oW200 cfgW {} argsW 0 "t" (by decide) (by decide)
      (by decide) (by decide)

theorem leases_step_404 (o : Oracle) (cfg : ClientConfig) (st : ScrapeState) (ns : String)
    (h : (o (build_url cfg.base_url "/v1/leases" []) cfg.headers).status = 404) :
    (leases_step o cfg st ns).1.disabled_endpoints =
      insert "leases" st.disabled_endpoints := by
  simp [leases_step, request_resp, h]

theorem tenders_step_disabled_sub (o : Oracle) (cfg : ClientConfig) (st : ScrapeState)
    (ns : String) :
    (tenders_step o cfg st ns).1.disabled_endpoints ⊆
      insert "tenders" st.disabled_endpoints := by
  simp only [tenders_step]
  split
  · exact Finset.Subset.refl _
  · split
    · exact Finset.subset_insert _ _
    · split
      · exact Finset.subset_insert _ _
      · exact Finset.subset_insert _ _

theorem case_ne_leases (b : String) :
    build_url b "/v1/case" [] ≠ build_url b "/v1/leases" [] := by
  apply ne_of_length_ne
  rw [build_url_noparams_length b "/v1/case" "v1/case" rfl (by decide),
      build_url_noparams_length b "/v1/leases" "v1/leases" rfl (by decide)]
  have h1 : ("v1/case" : String).length = 7 := rfl
  have h2 : ("v1/leases" : String).length = 9 := rfl
  omega

theorem sec_ne_leases (b : String) :
    build_url b "/v1/securities" [] ≠ build_url b "/v1/leases" [] := by
  apply ne_of_length_ne
  rw [build_url_noparams_length b "/v1/securities" "v1/securities" rfl (by decide),
      build_url_noparams_length b "/v1/leases" "v1/leases" rfl (by decide)]
  have h1 : ("v1/securities" : String).length = 13 := rfl
  have h2 : ("v1/leases" : String).length = 9 := rfl
  omega

theorem tenders_ne_leases (b : String) :
    build_url b "/v1/tenders" [] ≠ build_url b "/v1/leases" [] := by
  apply ne_of_length_ne
  rw [build_url_noparams_length b "/v1/tenders" "v1/tenders" rfl (by decide),
      build_url_noparams_length b "/v1/leases" "v1/leases" rfl (by decide)]
  have h1 : ("v1/tenders" : String).length = 10 := rfl
  have h2 : ("v1/leases" : String).length = 9 := rfl
  omega

theorem book_ne_leases (b t lim : String) :
    build_url b "/v1/securities/book" [("ticker", t), ("limit", lim)] ≠
      build_url b "/v1/leases" [] := by
  apply ne_of_length_ne
  rw [build_url_params_length b "/v1/securities/book" "v1/securities/book"
        [("ticker", t), ("limit", lim)] rfl (by decide) (by simp),
      build_url_noparams_length b "/v1/leases" "v1/leases" rfl (by decide)]
  have h1 : ("v1/securities/book" : String).length = 18 := rfl
  have h2 : ("v1/leases" : String).length = 9 := rfl
  omega

theorem news_ne_leases (b lim : String) (extra : List (String × String)) :
    build_url b "/v1/news" (("limit", lim) :: extra) ≠ build_url b "/v1/leases" [] := by
  apply ne_of_length_ne
  rw [build_url_params_length b "/v1/news" "v1/news" (("limit", lim) :: extra) rfl
        (by decide) (by simp),
      build_url_noparams_length b "/v1/leases" "v1/leases" rfl (by decide)]
  have henc := urlencode_cons_length "limit" lim extra
  have h1 : ("v1/news" : String).length = 7 := rfl
  have h2 : ("v1/leases" : String).length = 9 := rfl
  have h3 : ("limit" : String).length = 5 := rfl
  omega

theorem poll_leases_404 (o : Oracle) (cfg : ClientConfig) (st : ScrapeState) (args : Args)
    (now_ts : ℚ) (now_str : String)
    (hc : (o (build_url cfg.base_url "/v1/case" []) cfg.headers).status = 200)
    (hs : (o (build_url cfg.base_url "/v1/securities" []) cfg.headers).status = 200)
    (ha : asArr (o (build_url cfg.base_url "/v1/securities" []) cfg.headers).payload ≠ none)
    (hskipl : args.skip_leases = false)
    (h404 : (o (build_url cfg.base_url "/v1/leases" []) cfg.headers).status = 404)
    (hf : (poll_once o cfg st args now_ts now_str).fatal = none) :
    "leases" ∈ (poll_once o cfg st args now_ts now_str).state.disabled_endpoints := by
  by_cases hmem : "leases" ∈ st.disabled_endpoints
  · exact poll_disabled_mono o cfg st args now_ts now_str hmem
  · obtain ⟨items, hitems⟩ : ∃ xs,
        asArr (o (build_url cfg.base_url "/v1/securities" []) cfg.headers).payload
          = some xs := by
      cases hx : asArr (o (build_url cfg.base_url "/v1/securities" []) cfg.headers).payload with
      | none => exact absurd hx ha
      | some xs => exact ⟨xs, rfl⟩
    have hok : ensure_ok (o (build_url cfg.base_url "/v1/case" []) cfg.headers).status "case"
        = none := by rw [hc]; rfl
    have hok2 : ensure_ok (o (build_url cfg.base_url "/v1/securities" []) cfg.headers).status
        "securities" = none := by rw [hs]; rfl
    have hsc : (if (o (build_url cfg.base_url "/v1/securities" []) cfg.headers).status = 200
        then asArr (o (build_url cfg.base_url "/v1/securities" []) cfg.headers).payload
        else none) = some items := by rw [if_pos hs, hitems]
    revert hf
    simp only [poll_once, request_resp, hok, hok2, hsc]
    rw [if_pos hc]
    set DC := detect_case_events st
      (o (build_url cfg.base_url "/v1/case" []) cfg.headers).payload now_ts now_str
      with hDCdef
    set EN := enrich_securities DC.1 (List.map secOfJson items) with hENdef
    set BK : List String × Option String :=
      (if args.skip_books = true then ([], none)
       else books_step o cfg args.book_limit
         (select_book_tickers (List.filterMap tickerOf (List.map secOfJson items)) args))
      with hBKdef
    set NW : ScrapeState × List String × Option String :=
      (if args.skip_news = true then (EN.1, [], none) else news_step o cfg EN.1 args)
      with hNWdef
    set TD : ScrapeState × List String × Option String :=
      (if args.skip_tenders = true ∨ "tenders" ∈ NW.1.disabled_endpoints
       then (NW.1, [], none) else tenders_step o cfg NW.1 now_str) with hTDdef
    set LE : ScrapeState × List String × Option String :=
      (if args.skip_leases = true ∨ "leases" ∈ TD.1.disabled_endpoints
       then (TD.1, [], none) else leases_step o cfg TD.1 now_str) with hLEdef
    have hDC : DC.1.disabled_endpoints = st.disabled_endpoints := by
      rw [hDCdef]
      exact detect_disabled st _ now_ts now_str
    have hEN : EN.1.disabled_endpoints = st.disabled_endpoints := by
      rw [hENdef, enrich_securities_disabled]
      exact hDC
    have hNW1 : NW.1.disabled_endpoints = st.disabled_endpoints := by
      rw [hNWdef]
      split
      · exact hEN
      · rw [news_step_disabled]
        exact hEN
    have hTDsub : TD.1.disabled_endpoints ⊆ insert "tenders" st.disabled_endpoints := by
      rw [hTDdef]
      split
      · rw [hNW1]
        exact Finset.subset_insert _ _
      · refine Finset.Subset.trans (tenders_step_disabled_sub o cfg NW.1 now_str) ?_
        exact subset_of_eqF (by rw [hNW1])
    have hLEcond : ¬(args.skip_leases = true ∨ "leases" ∈ TD.1.disabled_endpoints) := by
      rw [hskipl]
      simp only [Bool.false_eq_true, false_or]
      intro hin
      rcases Finset.mem_insert.mp (hTDsub hin) with h | h
      · exact absurd h (by decide)
      · exact hmem h
    have hLE404 : LE.1.disabled_endpoints = insert "leases" TD.1.disabled_endpoints := by
      rw [hLEdef, if_neg hLEcond]
      exact leases_step_404 o cfg TD.1 now_str h404
    have hmemLE : "leases" ∈ LE.1.disabled_endpoints := by
      rw [hLE404]
      exact Finset.mem_insert_self _ _
    split
    · intro h
      exact absurd h (by simp)
    · split
      · intro h
        exact absurd h (by simp)
      · split
        · intro h
          exact absurd h (by simp)
        · split
          · intro _
            exact hmemLE
          · intro _
            exact hmemLE

theorem poll_no_leases_request (o : Oracle) (cfg : ClientConfig) (st : ScrapeState)
    (args : Args) (now_ts : ℚ) (now_str : String)
    (hmem : "leases" ∈ st.disabled_endpoints) :
    build_url cfg.base_url "/v1/leases" [] ∉ (poll_once o cfg st args now_ts now_str).urls := by
  intro hcontra
  have hRCne : ∀ u ∈ (request_json_with_retry o (build_url cfg.base_url "/v1/case" [])
      cfg.headers 2).2.1, u ≠ build_url cfg.base_url "/v1/leases" [] := by
    intro u hu
    rw [request_urls o _ cfg.headers 2 u hu]
    exact case_ne_leases cfg.base_url
  have hRSne : ∀ u ∈ (request_json_with_retry o (build_url cfg.base_url "/v1/securities" [])
      cfg.headers 2).2.1, u ≠ build_url cfg.base_url "/v1/leases" [] := by
    intro u hu
    rw [request_urls o _ cfg.headers 2 u hu]
    exact sec_ne_leases cfg.base_url
  simp only [poll_once, request_resp] at hcontra
  split at hcontra
  · exact hRCne _ hcontra rfl
  · split at hcontra
    · split at hcontra
      · rw [List.mem_append] at hcontra
        rcases hcontra with h | h
        · exact hRCne _ h rfl
        · exact hRSne _ h rfl
      · split at hcontra
        · rw [List.mem_append] at hcontra
          rcases hcontra with h | h
          · exact hRCne _ h rfl
          · exact hRSne _ h rfl
        · rename_i items heq
          set DC := detect_case_events st
            (o (build_url cfg.base_url "/v1/case" []) cfg.headers).payload now_ts now_str
            with hDCdef
          set EN := enrich_securities DC.1 (List.map secOfJson items) with hENdef
          set BK : List String × Option String :=
            (if args.skip_books = true then ([], none)
             else books_step o cfg args.book_limit
               (select_book_tickers (List.filterMap tickerOf (List.map secOfJson items)) args))
            with hBKdef
          set NW : ScrapeState × List String × Option String :=
            (if args.skip_news = true then (EN.1, [], none) else news_step o cfg EN.1 args)
            with hNWdef
          set TD : ScrapeState × List String × Option String :=
            (if args.skip_tenders = true ∨ "tenders" ∈ NW.1.disabled_endpoints
             then (NW.1, [], none) else tenders_step o cfg NW.1 now_str) with hTDdef
          set LE : ScrapeState × List String × Option String :=
            (if args.skip_leases = true ∨ "leases" ∈ TD.1.disabled_endpoints
             then (TD.1, [], none) else leases_step o cfg TD.1 now_str) with hLEdef
          have hDC : DC.1.disabled_endpoints = st.disabled_endpoints := by
            rw [hDCdef]
            exact detect_disabled st _ now_ts now_str
          have hEN : EN.1.disabled_endpoints = st.disabled_endpoints := by
            rw [hENdef, enrich_securities_disabled]
            exact hDC
          have hNW1 : NW.1.disabled_endpoints = st.disabled_endpoints := by
            rw [hNWdef]
            split
            · exact hEN
            · rw [news_step_disabled]
              exact hEN
          have hNWmem : "leases" ∈ NW.1.disabled_endpoints := by
            rw [hNW1]
            exact hmem
          have hTDmem : "leases" ∈ TD.1.disabled_endpoints := by
            rw [hTDdef]
            split
            · exact hNWmem
            · exact tenders_step_disabled_mono o cfg NW.1 now_str hNWmem
          have hBKne : ∀ u ∈ BK.1, u ≠ build_url cfg.base_url "/v1/leases" [] := by
            rw [hBKdef]
            split
            · simp
            · intro u hu
              obtain ⟨t, ht⟩ := books_step_urls o cfg args.book_limit _ u hu
              rw [ht]
              exact book_ne_leases cfg.base_url t (toString args.book_limit)
          have hNWne : ∀ u ∈ NW.2.1, u ≠ build_url cfg.base_url "/v1/leases" [] := by
            rw [hNWdef]
            split
            · simp
            · intro u hu
              obtain ⟨extra, hx⟩ := news_step_urls o cfg EN.1 args u hu
              rw [hx]
              exact news_ne_leases cfg.base_url (toString args.news_limit) extra
          have hTDne : ∀ u ∈ TD.2.1, u ≠ build_url cfg.base_url "/v1/leases" [] := by
            rw [hTDdef]
            split
            · simp
            · intro u hu
              rw [tenders_step_urls o cfg NW.1 now_str u hu]
              exact tenders_ne_leases cfg.base_url
          have hLEempty : LE.2.1 = [] := by
            rw [hLEdef, if_pos (Or.inr hTDmem)]
          split at hcontra
          · simp only [List.mem_append] at hcontra
            rcases hcontra with (h | h) | h
            · exact hRCne _ h rfl
            · exact hRSne _ h rfl
            · exact hBKne _ h rfl
          · split at hcontra
            · simp only [List.mem_append] at hcontra
              rcases hcontra with ((h | h) | h) | h
              · exact hRCne _ h rfl
              · exact hRSne _ h rfl
              · exact hBKne _ h rfl
              · exact hNWne _ h rfl
            · split at hcontra
              · simp only [List.mem_append] at hcontra
                rcases hcontra with (((h | h) | h) | h) | h
                · exact hRCne _ h rfl
                · exact hRSne _ h rfl
                · exact hBKne _ h rfl
                · exact hNWne _ h rfl
                · exact hTDne _ h rfl
              · split at hcontra
                · simp only [List.mem_append, hLEempty] at hcontra
                  rcases hcontra with ((((h | h) | h) | h) | h) | h
                  · exact hRCne _ h rfl
                  · exact hRSne _ h rfl
                  · exact hBKne _ h rfl
                  · exact hNWne _ h rfl
                  · exact hTDne _ h rfl
                  · exact absurd h (List.not_mem_nil _)
                · simp only [List.mem_append, hLEempty] at hcontra
                  rcases hcontra with ((((h | h) | h) | h) | h) | h
                  · exact hRCne _ h rfl
                  · exact hRSne _ h rfl
                  · exact hBKne _ h rfl
                  · exact hNWne _ h rfl
                  · exact hTDne _ h rfl
                  · exact absurd h (List.not_mem_nil _)
    · exact hRCne _ hcontra rfl

/-- C7: a 404 on the tenders (resp. leases) fetch during a cycle that reaches
it leaves that endpoint's name in `disabled_endpoints` at the end of the
cycle; the disabled set never loses a member across a cycle; once an endpoint
name is in the set no request to that endpoint's URL is issued by any cycle;
and the set survives a checkpoint save/reload intact (so the disablement
persists across restarts). -/
theorem tenders_disable_sticky :
    (∀ (o : Oracle) (cfg : ClientConfig) (st : ScrapeState) (args : Args) (now_ts : ℚ)
       (now_str : String),
       (o (build_url cfg.base_url "/v1/case" []) cfg.headers).status = 200 →
       (o (build_url cfg.base_url "/v1/securities" []) cfg.headers).status = 200 →
       asArr (o (build_url cfg.base_url "/v1/securities" []) cfg.headers).payload ≠ none →
       args.skip_tenders = false →
       (o (build_url cfg.base_url "/v1/tenders" []) cfg.headers).status = 404 →
       (poll_once o cfg st args now_ts now_str).fatal = none →
       "tenders" ∈ (poll_once o cfg st args now_ts now_str).state.disabled_endpoints) ∧
    (∀ (o : Oracle) (cfg : ClientConfig) (st : ScrapeState) (args : Args) (now_ts : ℚ)
       (now_str : String),
       (o (build_url cfg.base_url "/v1/case" []) cfg.headers).status = 200 →
       (o (build_url cfg.base_url "/v1/securities" []) cfg.headers).status = 200 →
       asArr (o (build_url cfg.base_url "/v1/securities" []) cfg.headers).payload ≠ none →
       args.skip_leases = false →
       (o (build_url cfg.base_url "/v1/leases" []) cfg.headers).status = 404 →
       (poll_once o cfg st args now_ts now_str).fatal = none →
       "leases" ∈ (poll_once o cfg st args now_ts now_str).state.disabled_endpoints) ∧
    (∀ (o : Oracle) (cfg : ClientConfig) (st : ScrapeState) (args : Args) (now_ts : ℚ)
       (now_str : String),
       st.disabled_endpoints ⊆ (poll_once o cfg st args now_ts now_str).state.disabled_endpoints) ∧
    (∀ (o : Oracle) (cfg : ClientConfig) (st : ScrapeState) (args : Args) (now_ts : ℚ)
       (now_str : String),
       "tenders" ∈ st.disabled_endpoints →
       build_url cfg.base_url "/v1/tenders" [] ∉ (poll_once o cfg st args now_ts now_str).urls) ∧
    (∀ (o : Oracle) (cfg : ClientConfig) (st : ScrapeState) (args : Args) (now_ts : ℚ)
       (now_str : String),
       "leases" ∈ st.disabled_endpoints →
       build_url cfg.base_url "/v1/leases" [] ∉ (poll_once o cfg st args now_ts now_str).urls) ∧
    (∀ s : ScrapeState,
       (ScrapeState.load (some s.save)).disabled_endpoints = s.disabled_endpoints) :=
  ⟨poll_tenders_404, poll_leases_404, poll_disabled_mono, poll_no_tenders_request,
   poll_no_leases_request, load_save_disabled⟩

def argsW7 : Args :=
  { book_limit := 10, book_tickers := none, book_max := none, skip_books := true
    news_limit := 20, skip_news := true, skip_tenders := false, skip_leases := true }

def argsW7L : Args :=
  { book_limit := 10, book_tickers := none, book_max := none, skip_books := true
    news_limit := 20, skip_news := true, skip_tenders := true, skip_leases := false }

def oW404 : Oracle := fun u _ =>
  if u = build_url "b" "/v1/tenders" [] then ⟨404, Json.null, []⟩
  else ⟨200, Json.arr [], []⟩

def oW404L : Oracle := fun u _ =>
  if u = build_url "b" "/v1/leases" [] then ⟨404, Json.null, []⟩
  else ⟨200, Json.arr [], []⟩

def stW7 : ScrapeState := { disabled_endpoints := {"tenders"} }

def stW7L : ScrapeState := { disabled_endpoints := {"leases"} }

theorem tenders_disable_sticky_witness :
    "tenders" ∈ (poll_once oW404 cfgW {} argsW7 0 "t").state.disabled_endpoints ∧
    "leases" ∈ (poll_once oW404L cfgW {} argsW7L 0 "t").state.disabled_endpoints ∧
    stW7.disabled_endpoints ⊆ (poll_once oW404 cfgW stW7 argsW7 0 "t").state.disabled_endpoints ∧
    build_url "b" "/v1/tenders" [] ∉ (poll_once oW404 cfgW stW7 argsW7 0 "t").urls ∧
    build_url "b" "/v1/leases" [] ∉ (poll_once oW404L cfgW stW7L argsW7L 0 "t").urls ∧
    (ScrapeState.load (some stW7.save)).disabled_endpoints = stW7.disabled_endpoints := by
  refine ⟨?_, ?_, ?_, ?_, ?_, ?_⟩
  · exact tenders_disable_sticky.1 oW404 cfgW {} argsW7 0 "t" (by decide) (by decide)
      (by decide) rfl (by decide) (by decide)
  · exact tenders_disable_sticky.2.1 oW404L cfgW {} argsW7L 0 "t" (by decide) (by decide)
      (by decide) rfl (by decide) (by decide)
  · exact tenders_disable_sticky.2.2.1 oW404 cfgW stW7 argsW7 0 "t"
  · exact tenders_disable_sticky.2.2.2.1 oW404 cfgW stW7 argsW7 0 "t" (by decide)
  · exact tenders_disable_sticky.2.2.2.2.1 oW404L cfgW stW7L argsW7L 0 "t" (by decide)
  · exact tenders_disable_sticky.2.2.2.2.2 stW7
